import Mathlib

/-!
Shallow embedding of the RangeBreak-Pullback trading engine
(TypeScript sources under `src/`) and proofs about its spec claims.

Prices, volumes and fees are embedded as rationals (`ℚ`), timestamps as
integers (epoch milliseconds).  Per-symbol `Map<string, X>` fields of the
execution engine are embedded as functions `String → Option X`.
-/

namespace RBP

/-- `src/domain/enums/TradeDirection.ts` (file absent from `src/`; the two
members LONG and SHORT are pinned by every usage in `src/`). -/
inductive TradeDirection where
  | LONG
  | SHORT
deriving DecidableEq

/-- `src/domain/entities/Candle.ts`: immutable OHLCV record.
The TypeScript field `open` is spelled `open_` because `open` is a Lean
keyword. -/
structure Candle where
  timestamp : Int
  open_ : ℚ
  high : ℚ
  low : ℚ
  close : ℚ
  volume : ℚ
  symbol : String
  timeframe : String
deriving DecidableEq

/-- `Candle.body`: `Math.abs(close - open)`. -/
def Candle.body (c : Candle) : ℚ := |c.close - c.open_|

/-- `Candle.bodyPercent`: `range > 0 ? (body / range) * 100 : 0`. -/
def Candle.bodyPercent (c : Candle) : ℚ :=
  if c.high - c.low > 0 then c.body / (c.high - c.low) * 100 else 0

/-- `Candle.upperWick`: `high - Math.max(open, close)`. -/
def Candle.upperWick (c : Candle) : ℚ := c.high - max c.open_ c.close

/-- `Candle.lowerWick`: `Math.min(open, close) - low`. -/
def Candle.lowerWick (c : Candle) : ℚ := min c.open_ c.close - c.low

/-- `src/domain/value-objects/MarketRange.ts`. -/
structure MarketRange where
  high : ℚ
  low : ℚ
  timestamp : Int
  size : ℚ
deriving DecidableEq

/-- `src/domain/value-objects/BreakoutSignal.ts`. -/
structure BreakoutSignal where
  direction : TradeDirection
  impulseSize : ℚ
  impulseHigh : ℚ
  impulseLow : ℚ
  timestamp : Int
  price : ℚ
deriving DecidableEq

/-- `BreakoutDetector.detectBreakout`
(`src/application/services/detection/BreakoutDetector.ts`). -/
def detectBreakout (candle : Candle) (range : MarketRange)
    (atr volumeSMA : ℚ) : Option BreakoutSignal :=
  let longBreakout := candle.close > range.high + 0.1 * atr
  let shortBreakout := candle.close < range.low - 0.1 * atr
  let bodyValid := candle.bodyPercent ≥ 50
  let volumeValid := candle.volume > volumeSMA * 0.8
  if longBreakout ∧ bodyValid ∧ volumeValid then
    some ⟨TradeDirection.LONG, candle.close - range.high, candle.high,
      range.high, candle.timestamp, candle.close⟩
  else if shortBreakout ∧ bodyValid ∧ volumeValid then
    some ⟨TradeDirection.SHORT, range.low - candle.close, range.low,
      candle.low, candle.timestamp, candle.close⟩
  else
    none

/-- `src/domain/enums/StrategyState.ts` (file absent from `src/`; the member
set is pinned by usages across `src/`: the `StateMachine` transition table
names eight states including `ENTRY_PLACED`, and the strategy files
additionally use the distinct member `LIMIT_ORDER_PLACED`). -/
inductive StrategyState where
  | IDLE
  | RANGE_DEFINED
  | BREAKOUT_DETECTED
  | WAIT_PULLBACK
  | ENTRY_PLACED
  | LIMIT_ORDER_PLACED
  | IN_POSITION
  | EXIT
  | RESET
deriving DecidableEq

/-- The `validTransitions` record of `StateMachine.canTransition`
(`src/application/services/state/StateMachine.ts`).  States without a key
in the record (only `LIMIT_ORDER_PLACED`) yield `undefined`, which the
source turns into `false` via `?.includes(...) ?? false`; here they map to
the empty list. -/
def validTransitions : StrategyState → List StrategyState
  | .IDLE => [.RANGE_DEFINED]
  | .RANGE_DEFINED => [.BREAKOUT_DETECTED, .RESET]
  | .BREAKOUT_DETECTED => [.WAIT_PULLBACK, .RESET]
  | .WAIT_PULLBACK => [.ENTRY_PLACED, .RESET]
  | .ENTRY_PLACED => [.IN_POSITION, .RESET]
  | .IN_POSITION => [.EXIT, .RESET]
  | .EXIT => [.RESET]
  | .RESET => [.IDLE]
  | .LIMIT_ORDER_PLACED => []

/-- `StateMachine.canTransition` from the current state `s`. -/
def canTransition (s newState : StrategyState) : Bool :=
  (validTransitions s).contains newState

/-- `StateMachine.transition`: updates the current state when
`canTransition` allows it, otherwise leaves it unchanged (the source
returns early without touching `currentState`). -/
def transition (s newState : StrategyState) : StrategyState :=
  if canTransition s newState then newState else s

/-- Modelled from the spec: the transition table of §4.6, which names the
post-pullback state `LIMIT_ORDER_PLACED` (the enumeration of §3 has no
`ENTRY_PLACED`).  Used only to compare the spec's table with the code's. -/
def specTransitionTable : StrategyState → List StrategyState
  | .IDLE => [.RANGE_DEFINED]
  | .RANGE_DEFINED => [.BREAKOUT_DETECTED, .RESET]
  | .BREAKOUT_DETECTED => [.WAIT_PULLBACK, .RESET]
  | .WAIT_PULLBACK => [.LIMIT_ORDER_PLACED, .RESET]
  | .LIMIT_ORDER_PLACED => [.IN_POSITION, .RESET]
  | .IN_POSITION => [.EXIT, .RESET]
  | .EXIT => [.RESET]
  | .RESET => [.IDLE]
  | .ENTRY_PLACED => []

/-- `PullbackValidator.isPullbackValid`
(`src/application/services/validation/PullbackValidator.ts`). -/
def isPullbackValid (candles1m : List Candle) (breakout : BreakoutSignal)
    (range : MarketRange) (vwap : ℚ) : Bool :=
  match candles1m.getLast? with
  | none => false
  | some lastCandle =>
    match breakout.direction with
    | .LONG =>
      let pullbackDepth := breakout.price - lastCandle.low
      if pullbackDepth > breakout.impulseSize * 0.5 then false
      else
        let nearRangeHigh := |lastCandle.close - range.high| < range.high * 0.002
        let nearVWAP := |lastCandle.close - vwap| < vwap * 0.002
        decide (nearRangeHigh ∨ nearVWAP)
    | .SHORT =>
      let pullbackDepth := lastCandle.high - breakout.price
      if pullbackDepth > breakout.impulseSize * 0.5 then false
      else
        let nearRangeLow := |lastCandle.close - range.low| < range.low * 0.002
        let nearVWAP := |lastCandle.close - vwap| < vwap * 0.002
        decide (nearRangeLow ∨ nearVWAP)

/-- Modelled from the spec (§4.5): "For LONG: pullback is valid iff the
current 1m low's retracement relative to the impulse is ≤ 50% and the
close is within 0.2% of `max(rangeHigh, VWAP)`. SHORT symmetric."  Used
only to compare the spec's wording with the code. -/
def isPullbackValidSpec (candles1m : List Candle) (breakout : BreakoutSignal)
    (range : MarketRange) (vwap : ℚ) : Bool :=
  match candles1m.getLast? with
  | none => false
  | some lastCandle =>
    match breakout.direction with
    | .LONG =>
      let level := max range.high vwap
      decide (breakout.price - lastCandle.low ≤ breakout.impulseSize * 0.5 ∧
        |lastCandle.close - level| < level * 0.002)
    | .SHORT =>
      let level := min range.low vwap
      decide (lastCandle.high - breakout.price ≤ breakout.impulseSize * 0.5 ∧
        |lastCandle.close - level| < level * 0.002)

/-- The true range `max(high - low, |high - prevClose|, |low - prevClose|)`
of `cur` against the previous candle `prev`, as computed in both
`IndicatorsProvider.atr` and `IndicatorEngine.calculateATR`. -/
def trueRange (prev cur : Candle) : ℚ :=
  max (cur.high - cur.low) (max |cur.high - prev.close| |cur.low - prev.close|)

/-- Helper for `trueRanges`: true ranges of the list against a running
previous candle. -/
def trueRangesFrom (prev : Candle) : List Candle → List ℚ
  | [] => []
  | c :: rest => trueRange prev c :: trueRangesFrom c rest

/-- The `trueRanges` / `trs` array built by both ATR implementations:
one entry per candle from index 1 on, each against its predecessor. -/
def trueRanges : List Candle → List ℚ
  | [] => []
  | c :: rest => trueRangesFrom c rest

/-- `IndicatorEngine.calculateSMA`
(`src/application/services/indicators/IndicatorEngine.ts`): 0 when fewer
than `period` values, otherwise the mean of the last `period` values. -/
def calculateSMA (values : List ℚ) (period : Nat) : ℚ :=
  if values.length < period then 0
  else (values.drop (values.length - period)).sum / (period : ℚ)

/-- `IndicatorEngine.calculateATR`: 0 when fewer than `period + 1`
candles, otherwise the SMA of the **last** `period` true ranges (no
Wilder smoothing in this implementation). -/
def calculateATR (candles : List Candle) (period : Nat) : ℚ :=
  if candles.length < period + 1 then 0
  else
    let trs := trueRanges candles
    calculateSMA (trs.drop (trs.length - period)) period

/-- The Wilder smoothing loop of `IndicatorsProvider.atr`: starting from
the current ATR value, fold the remaining true ranges through
`ATR ← (ATR·(period−1) + TR) / period`, emitting each new value. -/
def wilderSteps (period : Nat) : ℚ → List ℚ → List ℚ
  | _, [] => []
  | currentATR, tr :: rest =>
    let next := (currentATR * ((period : ℚ) - 1) + tr) / (period : ℚ)
    next :: wilderSteps period next rest

/-- `IndicatorsProvider.atr`
(`src/application/services/indicators/IndicatorsProvider.ts`): empty when
`candles.length ≤ period`, otherwise the Wilder-smoothed ATR series seeded
with the SMA of the first `period` true ranges. -/
def atr (candles : List Candle) (period : Nat) : List ℚ :=
  if candles.length ≤ period then []
  else
    let trs := trueRanges candles
    let seed := (trs.take period).sum / (period : ℚ)
    seed :: wilderSteps period seed (trs.drop period)

/-- `OrderType` from `src/domain/value-objects/TradingSignal.ts`. -/
inductive OrderType where
  | MARKET
  | LIMIT
deriving DecidableEq

/-- `TradingSignalMeta` from `src/domain/value-objects/TradingSignal.ts`. -/
structure TradingSignalMeta where
  reason : String
  confidence : Option ℚ := none
  rangeHigh : Option ℚ := none
  rangeLow : Option ℚ := none
  atr : Option ℚ := none
deriving DecidableEq

/-- `TradingSignal` from `src/domain/value-objects/TradingSignal.ts`. -/
structure TradingSignal where
  symbol : String
  direction : TradeDirection
  orderType : OrderType
  price : ℚ
  stopLoss : ℚ
  takeProfit : ℚ
  timestamp : Int
  meta : TradingSignalMeta
deriving DecidableEq

/-- `TradingSignal.stopDistance`: `Math.abs(price - stopLoss)`. -/
def TradingSignal.stopDistance (s : TradingSignal) : ℚ := |s.price - s.stopLoss|

/-- `TradingSignal.createLimitOrder`. -/
def TradingSignal.createLimitOrder (symbol : String) (direction : TradeDirection)
    (limitPrice stopLoss takeProfit : ℚ) (timestamp : Int)
    (meta : TradingSignalMeta) : TradingSignal :=
  ⟨symbol, direction, OrderType.LIMIT, limitPrice, stopLoss, takeProfit,
    timestamp, meta⟩

/-- `RangeBreakPullbackStrategy.createLimitSignal`
(`src/application/strategies/RangeBreakPullbackStrategy.ts`, lines
183-258), with the pieces of the strategy context it reads
(`breakout.direction`, `range.high`, `range.low`, `indicators.atr`) and
the trigger candle's timestamp passed as arguments.  The state-machine
transition and logging of the source are omitted; the returned signal is
modelled exactly. -/
def createLimitSignal (symbol : String) (direction : TradeDirection)
    (rangeHigh rangeLow vwap atrVal : ℚ) (triggerTimestamp : Int) :
    TradingSignal :=
  let atrBuffer := atrVal * 0.4
  let MIN_STOP_PERCENT : ℚ := 0.005
  let RISK_REWARD : ℚ := 2.5
  let meta : TradingSignalMeta :=
    { reason := "Pullback confirmed", rangeHigh := some rangeHigh,
      rangeLow := some rangeLow, atr := some atrVal }
  match direction with
  | .LONG =>
    let limitPrice := max rangeHigh vwap * 0.998
    let stopLoss0 := limitPrice - atrBuffer
    let stopDistance0 := limitPrice - stopLoss0
    let minStopDistance := limitPrice * MIN_STOP_PERCENT
    let stopDistance :=
      if stopDistance0 < minStopDistance then minStopDistance else stopDistance0
    let stopLoss :=
      if stopDistance0 < minStopDistance then limitPrice - stopDistance else stopLoss0
    let takeProfit := limitPrice + stopDistance * RISK_REWARD
    TradingSignal.createLimitOrder symbol direction limitPrice stopLoss
      takeProfit triggerTimestamp meta
  | .SHORT =>
    let limitPrice := min rangeLow vwap * 1.002
    let stopLoss0 := limitPrice + atrBuffer
    let stopDistance0 := stopLoss0 - limitPrice
    let minStopDistance := limitPrice * MIN_STOP_PERCENT
    let stopDistance :=
      if stopDistance0 < minStopDistance then minStopDistance else stopDistance0
    let stopLoss :=
      if stopDistance0 < minStopDistance then limitPrice + stopDistance else stopLoss0
    let takeProfit := limitPrice - stopDistance * RISK_REWARD
    TradingSignal.createLimitOrder symbol direction limitPrice stopLoss
      takeProfit triggerTimestamp meta

/-- `TradeResult` from
`src/application/services/portfolio/PortfolioManager.ts`. -/
structure TradeResult where
  pnl : ℚ
  fees : ℚ
  netPnl : ℚ
deriving DecidableEq

/-- Mutable state of `PortfolioManager`
(`src/application/services/portfolio/PortfolioManager.ts`). -/
structure PortfolioManager where
  balance : ℚ
  dailyLoss : ℚ
  consecutiveLosses : Nat
  lastDayProcessed : Int
  equityCurve : List (Int × ℚ)
  peakEquity : ℚ
  maxDrawdown : ℚ
deriving DecidableEq

/-- `PortfolioManager` constructor: fresh state at `initialBalance`. -/
def PortfolioManager.init (initialBalance : ℚ) : PortfolioManager :=
  ⟨initialBalance, 0, 0, -1, [], initialBalance, 0⟩

/-- `MAX_DAILY_LOSS_PERCENT = 0.10`. -/
def MAX_DAILY_LOSS_PERCENT : ℚ := 0.10

/-- `MAX_CONSECUTIVE_LOSSES = 10`. -/
def MAX_CONSECUTIVE_LOSSES : Nat := 10

/-- `PortfolioManager.canTrade`.  (The JS division `dailyLoss / balance`
here is rational division; the claims exercise it only with a positive
balance, where the two agree.) -/
def PortfolioManager.canTrade (p : PortfolioManager) : Bool :=
  if p.dailyLoss / p.balance ≥ MAX_DAILY_LOSS_PERCENT then false
  else if p.consecutiveLosses ≥ MAX_CONSECUTIVE_LOSSES then false
  else true

/-- `PortfolioManager.deductFee`. -/
def PortfolioManager.deductFee (p : PortfolioManager) (fee : ℚ) :
    PortfolioManager :=
  { p with balance := p.balance - fee }

/-- `PortfolioManager.applyTradeResult`: adds the raw pnl to the balance
(fees were already deducted via `deductFee`) and updates the daily-loss
and consecutive-loss counters from the net pnl. -/
def PortfolioManager.applyTradeResult (p : PortfolioManager)
    (result : TradeResult) : PortfolioManager :=
  let p1 := { p with balance := p.balance + result.pnl }
  if result.netPnl < 0 then
    { p1 with dailyLoss := p1.dailyLoss + |result.netPnl|,
              consecutiveLosses := p1.consecutiveLosses + 1 }
  else
    { p1 with consecutiveLosses := 0 }

/-- `PortfolioManager.recordEquity`. -/
def PortfolioManager.recordEquity (p : PortfolioManager) (timestamp : Int) :
    PortfolioManager :=
  let p1 := { p with equityCurve := p.equityCurve ++ [(timestamp, p.balance)] }
  let p2 := if p1.balance > p1.peakEquity then { p1 with peakEquity := p1.balance } else p1
  let currentDrawdown := (p2.peakEquity - p2.balance) / p2.peakEquity
  if currentDrawdown > p2.maxDrawdown then { p2 with maxDrawdown := currentDrawdown } else p2

/-- The three `PortfolioManager` mutators that can occur between two
daily resets (claim C6's "operations within one UTC day");
`resetDailyStats` is excluded by that claim's hypothesis. -/
inductive PortfolioOp where
  | fee (amount : ℚ)
  | trade (result : TradeResult)
  | equity (timestamp : Int)

/-- Apply one `PortfolioOp`. -/
def PortfolioManager.applyOp (p : PortfolioManager) : PortfolioOp → PortfolioManager
  | .fee a => p.deductFee a
  | .trade r => p.applyTradeResult r
  | .equity t => p.recordEquity t

/-- Apply a sequence of `PortfolioOp`s left to right. -/
def PortfolioManager.applyOps (p : PortfolioManager) (ops : List PortfolioOp) :
    PortfolioManager :=
  ops.foldl PortfolioManager.applyOp p

/-- `RiskEngine.calculatePositionSize`
(`src/application/services/risk/RiskEngine.ts`): risks `RISK_PERCENT = 1%`
of the balance over the stop distance. -/
def calculatePositionSize (balance stopDistance : ℚ) : ℚ :=
  balance * 0.01 / stopDistance

/-- `ExecutionEngine.SLIPPAGE = 0.0001`. -/
def SLIPPAGE : ℚ := 0.0001

/-- `ExecutionEngine.MAKER_FEE = 0.0002`. -/
def MAKER_FEE : ℚ := 0.0002

/-- `ExecutionEngine.TAKER_FEE = 0.0005`. -/
def TAKER_FEE : ℚ := 0.0005

/-- `ExecutionEngine.LEVERAGE = 10`. -/
def LEVERAGE : ℚ := 10

/-- `ExecutionEngine.MAINTENANCE_MARGIN = 0.005`. -/
def MAINTENANCE_MARGIN : ℚ := 0.005

/-- `PendingLimitOrder` from
`src/application/services/execution/ExecutionEngine.ts`. -/
structure PendingLimitOrder where
  signal : TradingSignal
  size : ℚ
  timestamp : Int
deriving DecidableEq

/-- `PendingMarketOrder` from `ExecutionEngine.ts`. -/
structure PendingMarketOrder where
  signal : TradingSignal
  size : ℚ
  timestamp : Int
deriving DecidableEq

/-- `ActivePosition` from `ExecutionEngine.ts`.  `tradeId` is the id
handed back by the trade repository, modelled as a counter. -/
structure ActivePosition where
  tradeId : Nat
  signal : TradingSignal
  size : ℚ
  entryPrice : ℚ
  entryTime : Int
  entryFee : ℚ
deriving DecidableEq

/-- The mutable state of `ExecutionEngine` together with its
`PortfolioManager`.  The per-symbol `Map`s are embedded as functions
`String → Option _`; `nextTradeId` models the ids generated by the
external trade repository. -/
structure EngineState where
  pendingOrders : String → Option PendingLimitOrder
  pendingMarketOrders : String → Option PendingMarketOrder
  activePositions : String → Option ActivePosition
  lastCandles : String → Option Candle
  portfolio : PortfolioManager
  nextTradeId : Nat

/-- Point update of an embedded `Map<string, X>` (`set` for `some`,
`delete` for `none`). -/
def mapSet {α : Type} (m : String → Option α) (k : String) (v : Option α) :
    String → Option α :=
  fun s => if s = k then v else m s

/-- A fresh engine over a fresh portfolio. -/
def EngineState.init (initialBalance : ℚ) : EngineState :=
  ⟨fun _ => none, fun _ => none, fun _ => none, fun _ => none,
    PortfolioManager.init initialBalance, 1⟩

/-- `ExecutionEngine.openPosition`: deducts the entry fee immediately and
stores the active position (the repository write is external). -/
def openPosition (s : EngineState) (symbol : String) (signal : TradingSignal)
    (size entryPrice : ℚ) (timestamp : Int) : EngineState :=
  let entryFee := entryPrice * size * TAKER_FEE
  { s with portfolio := s.portfolio.deductFee entryFee,
           activePositions := mapSet s.activePositions symbol
             (some ⟨s.nextTradeId, signal, size, entryPrice, timestamp, entryFee⟩),
           nextTradeId := s.nextTradeId + 1 }

/-- `ExecutionEngine.placeOrder`: rejected (state unchanged) when the
kill switch is active, a position exists for the symbol, or an order is
already pending; otherwise enqueues a limit or market order stamped with
the signal's timestamp. -/
def placeOrder (s : EngineState) (signal : TradingSignal) : EngineState :=
  if ¬ s.portfolio.canTrade then s
  else if (s.activePositions signal.symbol).isSome then s
  else if (s.pendingOrders signal.symbol).isSome ∨
          (s.pendingMarketOrders signal.symbol).isSome then s
  else
    let size := calculatePositionSize s.portfolio.balance signal.stopDistance
    match signal.orderType with
    | .LIMIT =>
      { s with pendingOrders :=
          mapSet s.pendingOrders signal.symbol (some ⟨signal, size, signal.timestamp⟩) }
    | .MARKET =>
      { s with pendingMarketOrders :=
          mapSet s.pendingMarketOrders signal.symbol (some ⟨signal, size, signal.timestamp⟩) }

/-- `ExecutionEngine.executePendingMarketOrders`: a queued market order
fills at the candle's open adjusted by slippage, but only on a candle
strictly after the order's timestamp. -/
def executePendingMarketOrders (s : EngineState) (candle : Candle) : EngineState :=
  match s.pendingMarketOrders candle.symbol with
  | none => s
  | some order =>
    if candle.timestamp ≤ order.timestamp then s
    else
      let fillPrice := match order.signal.direction with
        | .LONG => candle.open_ * (1 + SLIPPAGE)
        | .SHORT => candle.open_ * (1 - SLIPPAGE)
      let s1 := openPosition s candle.symbol order.signal order.size fillPrice
        candle.timestamp
      { s1 with pendingMarketOrders := mapSet s1.pendingMarketOrders candle.symbol none }

/-- `ExecutionEngine.checkLimitOrders`: a limit order can fill only on a
candle strictly after its timestamp, when the candle touches the limit
price (LONG: `low ≤ price`, SHORT: `high ≥ price`); unfilled orders
expire after 120 minutes. -/
def checkLimitOrders (s : EngineState) (candle : Candle) : EngineState :=
  match s.pendingOrders candle.symbol with
  | none => s
  | some order =>
    if candle.timestamp ≤ order.timestamp then s
    else
      let filled := match order.signal.direction with
        | .LONG => decide (candle.low ≤ order.signal.price)
        | .SHORT => decide (candle.high ≥ order.signal.price)
      if filled then
        let fillPrice := match order.signal.direction with
          | .LONG => order.signal.price * (1 + SLIPPAGE * 0.5)
          | .SHORT => order.signal.price * (1 - SLIPPAGE * 0.5)
        let s1 := openPosition s candle.symbol order.signal order.size fillPrice
          candle.timestamp
        { s1 with pendingOrders := mapSet s1.pendingOrders candle.symbol none }
      else if candle.timestamp - order.timestamp > 120 * 60 * 1000 then
        { s with pendingOrders := mapSet s.pendingOrders candle.symbol none }
      else s

/-- `ExecutionEngine.calculateLiquidationPrice`. -/
def calculateLiquidationPrice (entryPrice : ℚ) : TradeDirection → ℚ
  | .LONG => entryPrice * (1 - 1 / LEVERAGE + MAINTENANCE_MARGIN)
  | .SHORT => entryPrice * (1 + 1 / LEVERAGE - MAINTENANCE_MARGIN)

/-- The exit decision of `ExecutionEngine.managePositions`: skipped on
the entry candle, then liquidation is checked first, stop loss second,
take profit last; returns the raw exit price and the reason string
passed to `closePosition`. -/
def manageDecision (pos : ActivePosition) (candle : Candle) :
    Option (ℚ × String) :=
  if candle.timestamp = pos.entryTime then none
  else
    let liquidationPrice := calculateLiquidationPrice pos.entryPrice pos.signal.direction
    match pos.signal.direction with
    | .LONG =>
      if candle.low ≤ liquidationPrice then some (liquidationPrice, "LIQUIDATED")
      else if candle.low ≤ pos.signal.stopLoss then some (pos.signal.stopLoss, "Stop Loss")
      else if candle.high ≥ pos.signal.takeProfit then some (pos.signal.takeProfit, "Take Profit")
      else none
    | .SHORT =>
      if candle.high ≥ liquidationPrice then some (liquidationPrice, "LIQUIDATED")
      else if candle.high ≥ pos.signal.stopLoss then some (pos.signal.stopLoss, "Stop Loss")
      else if candle.low ≤ pos.signal.takeProfit then some (pos.signal.takeProfit, "Take Profit")
      else none

/-- `reason.includes('Stop') || reason === 'LIQUIDATED'`: the exit-fee
rate selector of `ExecutionEngine.closePosition`. -/
def reasonIsTaker (reason : String) : Bool :=
  decide ("Stop".toList <:+: reason.toList) || reason == "LIQUIDATED"

/-- `ExecutionEngine.closePosition`: applies exit slippage, computes the
raw PnL, deducts the exit fee (taker for stop/liquidation, maker
otherwise), applies the trade result to the portfolio and removes the
position.  (The repository write and logging are external.) -/
def closePosition (s : EngineState) (symbol : String) (exitPriceRaw : ℚ)
    (_timestamp : Int) (reason : String) : EngineState :=
  match s.activePositions symbol with
  | none => s
  | some pos =>
    let exitPrice := match pos.signal.direction with
      | .LONG => exitPriceRaw * (1 - SLIPPAGE)
      | .SHORT => exitPriceRaw * (1 + SLIPPAGE)
    let rawPnl := match pos.signal.direction with
      | .LONG => (exitPrice - pos.entryPrice) * pos.size
      | .SHORT => (pos.entryPrice - exitPrice) * pos.size
    let exitVol := exitPrice * pos.size
    let exitFee := if reasonIsTaker reason then exitVol * TAKER_FEE
      else exitVol * MAKER_FEE
    let p1 := s.portfolio.deductFee exitFee
    let totalFee := pos.entryFee + exitFee
    let netPnl := rawPnl - totalFee
    let p2 := p1.applyTradeResult ⟨rawPnl, totalFee, netPnl⟩
    { s with portfolio := p2,
             activePositions := mapSet s.activePositions symbol none }

/-- `ExecutionEngine.managePositions`. -/
def managePositions (s : EngineState) (candle : Candle) : EngineState :=
  match s.activePositions candle.symbol with
  | none => s
  | some pos =>
    match manageDecision pos candle with
    | none => s
    | some (exitPrice, reason) =>
      closePosition s candle.symbol exitPrice candle.timestamp reason

/-- `ExecutionEngine.onMarketData`: stores the last candle, then executes
pending market orders, then checks limit orders, then manages open
positions. -/
def onMarketData (s : EngineState) (candle : Candle) : EngineState :=
  let s0 := { s with lastCandles := mapSet s.lastCandles candle.symbol (some candle) }
  let s1 := executePendingMarketOrders s0 candle
  let s2 := checkLimitOrders s1 candle
  managePositions s2 candle

/-- `ExecutionEngine.cancelOrder`. -/
def cancelOrder (s : EngineState) (symbol : String) : EngineState :=
  let s1 := if (s.pendingOrders symbol).isSome then
      { s with pendingOrders := mapSet s.pendingOrders symbol none }
    else s
  if (s1.pendingMarketOrders symbol).isSome then
    { s1 with pendingMarketOrders := mapSet s1.pendingMarketOrders symbol none }
  else s1

/-- The public `ExecutionEngine` calls a driver can issue (claim C3's
"any sequence of placeOrder/onMarketData/cancelOrder calls"). -/
inductive EngineOp where
  | place (signal : TradingSignal)
  | market (candle : Candle)
  | cancel (symbol : String)

/-- Apply one `EngineOp`. -/
def EngineState.step (s : EngineState) : EngineOp → EngineState
  | .place sig => placeOrder s sig
  | .market c => onMarketData s c
  | .cancel sym => cancelOrder s sym

/-- Apply a sequence of `EngineOp`s left to right. -/
def EngineState.run (s : EngineState) (ops : List EngineOp) : EngineState :=
  ops.foldl EngineState.step s

/-- Claim C3's per-symbol invariant: each symbol has at most one pending
order — never both a pending limit and a pending market order.  (At most
one active position and at most one order of each kind per symbol is
structural: the source keeps them in per-symbol `Map`s, embedded here as
`String → Option _`.) -/
def atMostOnePending (s : EngineState) : Prop :=
  ∀ sym, s.pendingOrders sym = none ∨ s.pendingMarketOrders sym = none

/-- A flat (zero-range) candle with all four prices equal to `v`; used in
concrete evaluations. -/
def flatCandle (v : ℚ) : Candle := ⟨0, v, v, v, v, 1, "BTCUSDT", "1m"⟩

/-- A 16-candle sequence whose true ranges are `[14, 0, …, 0]`; used in
concrete evaluations of the ATR implementations. -/
def atrProbeCandles : List Candle :=
  flatCandle 0 :: List.replicate 15 (flatCandle 14)

/-- The transition table of the amended claim C7, written out: as the
spec's table but with `ENTRY_PLACED` in place of `LIMIT_ORDER_PLACED` in
the `WAIT_PULLBACK` row and as the row leading to `IN_POSITION`, while
`LIMIT_ORDER_PLACED` itself has no outgoing edges. -/
def amendedTransitionTable : StrategyState → List StrategyState
  | .IDLE => [.RANGE_DEFINED]
  | .RANGE_DEFINED => [.BREAKOUT_DETECTED, .RESET]
  | .BREAKOUT_DETECTED => [.WAIT_PULLBACK, .RESET]
  | .WAIT_PULLBACK => [.ENTRY_PLACED, .RESET]
  | .ENTRY_PLACED => [.IN_POSITION, .RESET]
  | .IN_POSITION => [.EXIT, .RESET]
  | .EXIT => [.RESET]
  | .RESET => [.IDLE]
  | .LIMIT_ORDER_PLACED => []

/-- An operation that is not a winning-trade close: `deductFee` and
`recordEquity` always, `applyTradeResult` only with negative net pnl.
Winning closes reset `consecutiveLosses` and are exactly what breaks the
spec's monotonicity. -/
def PortfolioOp.nonWinning : PortfolioOp → Bool
  | .trade r => decide (r.netPnl < 0)
  | _ => true

/-! ## Helper lemmas -/

/-- The `if a < b then b else a` pattern of the source is `max a b`. -/
theorem if_lt_then_eq_max (a b : ℚ) : (if a < b then b else a) = max a b := by
  rcases le_or_lt b a with h | h
  · rw [if_neg (not_lt.mpr h), max_eq_left h]
  · rw [if_pos h, max_eq_right h.le]

/-- `applyTradeResult` always moves the balance by exactly the raw pnl. -/
theorem applyTradeResult_balance (p : PortfolioManager) (r : TradeResult) :
    (p.applyTradeResult r).balance = p.balance + r.pnl := by
  unfold PortfolioManager.applyTradeResult
  split <;> rfl

/-! ## C10 — bodyPercent totality and breakout body filter -/

/-- C10: `Candle.bodyPercent` is total and never divides by zero: a candle
with `high = low` yields 0 (not NaN/∞), a candle whose open and close lie
within `[low, high]` yields a value in `[0, 100]`, and since
`BreakoutDetector.detectBreakout` requires `bodyPercent ≥ 50`, a
zero-range candle can never qualify as a breakout. -/
theorem bodyPercent_total_and_bounded (c : Candle) (range : MarketRange)
    (atrVal volumeSMA : ℚ) :
    (c.high = c.low → c.bodyPercent = 0) ∧
    (c.low ≤ c.open_ → c.open_ ≤ c.high → c.low ≤ c.close → c.close ≤ c.high →
      0 ≤ c.bodyPercent ∧ c.bodyPercent ≤ 100) ∧
    (c.high = c.low → detectBreakout c range atrVal volumeSMA = none) := by
  have hzero : c.high = c.low → c.bodyPercent = 0 := by
    intro h
    simp [Candle.bodyPercent, h]
  refine ⟨hzero, ?_, ?_⟩
  · intro h1 h2 h3 h4
    unfold Candle.bodyPercent
    split
    · next hr =>
      have hbody0 : 0 ≤ c.body := abs_nonneg _
      have hbody : c.body ≤ c.high - c.low := by
        unfold Candle.body
        rw [abs_le]
        constructor <;> linarith
      constructor
      · have := div_nonneg hbody0 (le_of_lt hr)
        nlinarith
      · have hdiv : c.body / (c.high - c.low) ≤ 1 := (div_le_one hr).mpr hbody
        nlinarith
    · norm_num
  · intro h
    have hbp := hzero h
    unfold detectBreakout
    have : ¬ (50 : ℚ) ≤ c.bodyPercent := by rw [hbp]; norm_num
    simp only [ge_iff_le]
    rw [if_neg, if_neg]
    · rintro ⟨-, hb, -⟩; exact this hb
    · rintro ⟨-, hb, -⟩; exact this hb

/-- Witness for C10 at concrete inputs: a flat candle at price 5 (the
zero-range branches) and a candle `(open 1, high 4, low 1, close 3)` (the
bounded branch). -/
theorem bodyPercent_total_and_bounded_witness :
    Candle.bodyPercent (flatCandle 5) = 0 ∧
    detectBreakout (flatCandle 5) ⟨4, 3, 0, 1⟩ 1 1 = none ∧
    (0 ≤ Candle.bodyPercent ⟨0, 1, 4, 1, 3, 10, "BTCUSDT", "1m"⟩ ∧
      Candle.bodyPercent ⟨0, 1, 4, 1, 3, 10, "BTCUSDT", "1m"⟩ ≤ 100) :=
  ⟨(bodyPercent_total_and_bounded (flatCandle 5) ⟨4, 3, 0, 1⟩ 1 1).1 rfl,
   (bodyPercent_total_and_bounded (flatCandle 5) ⟨4, 3, 0, 1⟩ 1 1).2.2 rfl,
   (bodyPercent_total_and_bounded ⟨0, 1, 4, 1, 3, 10, "BTCUSDT", "1m"⟩ ⟨4, 3, 0, 1⟩ 1 1).2.1
     (by norm_num) (by norm_num) (by norm_num) (by norm_num)⟩

/-! ## C7 — state machine transition table -/

/-- C7 counterexample: the spec's table contains the edge
`WAIT_PULLBACK → LIMIT_ORDER_PLACED`, but `StateMachine.transition`
rejects that request as a no-op: the code's table allows only
`ENTRY_PLACED` (a distinct enum member) out of `WAIT_PULLBACK`. -/
theorem transition_spec_table_counterexample :
    (specTransitionTable StrategyState.WAIT_PULLBACK).contains
      StrategyState.LIMIT_ORDER_PLACED = true ∧
    transition StrategyState.WAIT_PULLBACK StrategyState.LIMIT_ORDER_PLACED
      = StrategyState.WAIT_PULLBACK ∧
    StrategyState.WAIT_PULLBACK ≠ StrategyState.LIMIT_ORDER_PLACED := by
  decide

/-- C7 (amended): `StateMachine.transition(s', reason)` changes the
current state `s` to `s'` iff the edge `(s, s')` is in the code's table
(the spec's table with `ENTRY_PLACED` where it wrote
`LIMIT_ORDER_PLACED`); every other request leaves the state unchanged. -/
theorem transition_follows_table (s s' : StrategyState) :
    transition s s'
      = (if (amendedTransitionTable s).contains s' then s' else s) := by
  cases s <;> cases s' <;> rfl

/-! ## C5 — limit signal construction -/

/-- Closed form of `createLimitSignal` for LONG: the two-step stop
computation of the source collapses to `max(ATR·0.4, price·0.005)`. -/
theorem createLimitSignal_LONG_eq (symbol : String)
    (rangeHigh rangeLow vwap atrVal : ℚ) (ts : Int) :
    createLimitSignal symbol .LONG rangeHigh rangeLow vwap atrVal ts =
      ⟨symbol, .LONG, .LIMIT, max rangeHigh vwap * 0.998,
        max rangeHigh vwap * 0.998
          - max (atrVal * 0.4) (max rangeHigh vwap * 0.998 * 0.005),
        max rangeHigh vwap * 0.998
          + max (atrVal * 0.4) (max rangeHigh vwap * 0.998 * 0.005) * 2.5,
        ts, ⟨"Pullback confirmed", none, some rangeHigh, some rangeLow, some atrVal⟩⟩ := by
  simp only [createLimitSignal, TradingSignal.createLimitOrder, sub_sub_cancel]
  by_cases hc : atrVal * 0.4 < max rangeHigh vwap * 0.998 * 0.005
  · simp only [if_pos hc, max_eq_right hc.le]
  · simp only [if_neg hc, max_eq_left (not_lt.mp hc)]

/-- Closed form of `createLimitSignal` for SHORT. -/
theorem createLimitSignal_SHORT_eq (symbol : String)
    (rangeHigh rangeLow vwap atrVal : ℚ) (ts : Int) :
    createLimitSignal symbol .SHORT rangeHigh rangeLow vwap atrVal ts =
      ⟨symbol, .SHORT, .LIMIT, min rangeLow vwap * 1.002,
        min rangeLow vwap * 1.002
          + max (atrVal * 0.4) (min rangeLow vwap * 1.002 * 0.005),
        min rangeLow vwap * 1.002
          - max (atrVal * 0.4) (min rangeLow vwap * 1.002 * 0.005) * 2.5,
        ts, ⟨"Pullback confirmed", none, some rangeHigh, some rangeLow, some atrVal⟩⟩ := by
  simp only [createLimitSignal, TradingSignal.createLimitOrder, add_sub_cancel_left]
  by_cases hc : atrVal * 0.4 < min rangeLow vwap * 1.002 * 0.005
  · simp only [if_pos hc, max_eq_right hc.le]
  · simp only [if_neg hc, max_eq_left (not_lt.mp hc)]

/-- C5: every signal produced by `createLimitSignal` on a validated
pullback is a LIMIT signal with price `max(rangeHigh, VWAP)·0.998` for
LONG (`min(rangeLow, VWAP)·1.002` for SHORT), stop distance
`max(ATR·0.4, price·0.005)`, stop-loss `price ∓ distance` and take-profit
`price ± distance·2.5`; assuming `price > 0` and `ATR ≥ 0`, the ordering
invariants hold and the stop distance is positive. -/
theorem createLimitSignal_invariants (symbol : String)
    (direction : TradeDirection) (rangeHigh rangeLow vwap atrVal : ℚ)
    (ts : Int) (sig : TradingSignal)
    (hsig : sig = createLimitSignal symbol direction rangeHigh rangeLow vwap atrVal ts) :
    (sig.orderType = OrderType.LIMIT ∧ sig.direction = direction ∧
      sig.timestamp = ts) ∧
    (direction = .LONG →
      sig.price = max rangeHigh vwap * 0.998 ∧
      sig.stopLoss = sig.price - max (atrVal * 0.4) (sig.price * 0.005) ∧
      sig.takeProfit = sig.price + max (atrVal * 0.4) (sig.price * 0.005) * 2.5) ∧
    (direction = .SHORT →
      sig.price = min rangeLow vwap * 1.002 ∧
      sig.stopLoss = sig.price + max (atrVal * 0.4) (sig.price * 0.005) ∧
      sig.takeProfit = sig.price - max (atrVal * 0.4) (sig.price * 0.005) * 2.5) ∧
    (0 < sig.price → 0 ≤ atrVal →
      sig.stopDistance = max (atrVal * 0.4) (sig.price * 0.005) ∧
      0 < sig.stopDistance ∧
      (direction = .LONG → sig.stopLoss < sig.price ∧ sig.price < sig.takeProfit) ∧
      (direction = .SHORT → sig.takeProfit < sig.price ∧ sig.price < sig.stopLoss)) := by
  subst hsig
  cases direction
  case LONG =>
    rw [createLimitSignal_LONG_eq]
    refine ⟨⟨rfl, rfl, rfl⟩, ?_, ?_, ?_⟩
    · intro h
      exact ⟨rfl, rfl, rfl⟩
    · intro h
      cases h
    · intro hp ha
      simp only at hp ⊢
      have hd : 0 < max (atrVal * 0.4) (max rangeHigh vwap * 0.998 * 0.005) :=
        lt_of_lt_of_le (by nlinarith) (le_max_right _ _)
      have hsd : TradingSignal.stopDistance
          ⟨symbol, .LONG, .LIMIT, max rangeHigh vwap * 0.998,
            max rangeHigh vwap * 0.998
              - max (atrVal * 0.4) (max rangeHigh vwap * 0.998 * 0.005),
            max rangeHigh vwap * 0.998
              + max (atrVal * 0.4) (max rangeHigh vwap * 0.998 * 0.005) * 2.5,
            ts, ⟨"Pullback confirmed", none, some rangeHigh, some rangeLow, some atrVal⟩⟩
          = max (atrVal * 0.4) (max rangeHigh vwap * 0.998 * 0.005) := by
        unfold TradingSignal.stopDistance
        simp only
        rw [sub_sub_cancel, abs_of_pos hd]
      refine ⟨hsd, ?_, ?_, ?_⟩
      · rw [hsd]; exact hd
      · intro h
        exact ⟨by linarith, by nlinarith⟩
      · intro h
        cases h
  case SHORT =>
    rw [createLimitSignal_SHORT_eq]
    refine ⟨⟨rfl, rfl, rfl⟩, ?_, ?_, ?_⟩
    · intro h
      cases h
    · intro h
      exact ⟨rfl, rfl, rfl⟩
    · intro hp ha
      simp only at hp ⊢
      have hd : 0 < max (atrVal * 0.4) (min rangeLow vwap * 1.002 * 0.005) :=
        lt_of_lt_of_le (by nlinarith) (le_max_right _ _)
      have habs : min rangeLow vwap * 1.002 -
          (min rangeLow vwap * 1.002 +
            max (atrVal * 0.4) (min rangeLow vwap * 1.002 * 0.005)) =
          -(max (atrVal * 0.4) (min rangeLow vwap * 1.002 * 0.005)) := by ring
      have hsd : TradingSignal.stopDistance
          ⟨symbol, .SHORT, .LIMIT, min rangeLow vwap * 1.002,
            min rangeLow vwap * 1.002
              + max (atrVal * 0.4) (min rangeLow vwap * 1.002 * 0.005),
            min rangeLow vwap * 1.002
              - max (atrVal * 0.4) (min rangeLow vwap * 1.002 * 0.005) * 2.5,
            ts, ⟨"Pullback confirmed", none, some rangeHigh, some rangeLow, some atrVal⟩⟩
          = max (atrVal * 0.4) (min rangeLow vwap * 1.002 * 0.005) := by
        unfold TradingSignal.stopDistance
        simp only
        rw [habs, abs_neg, abs_of_pos hd]
      refine ⟨hsd, ?_, ?_, ?_⟩
      · rw [hsd]; exact hd
      · intro h
        cases h
      · intro h
        exact ⟨by nlinarith, by linarith⟩

/-- Witness for C5 at a concrete LONG input
(`rangeHigh = 100, vwap = 99, ATR = 2`): the limit price is positive and
the ordering invariant holds there. -/
theorem createLimitSignal_invariants_witness :
    (createLimitSignal "BTCUSDT" .LONG 100 95 99 2 0).stopLoss
        < (createLimitSignal "BTCUSDT" .LONG 100 95 99 2 0).price ∧
    (createLimitSignal "BTCUSDT" .LONG 100 95 99 2 0).price
        < (createLimitSignal "BTCUSDT" .LONG 100 95 99 2 0).takeProfit :=
  ((createLimitSignal_invariants "BTCUSDT" .LONG 100 95 99 2 0 _ rfl).2.2.2
    (by rw [createLimitSignal_LONG_eq]; norm_num) (by norm_num)).2.2.1 rfl

/-! ## C6 — kill-switch characterisation and (non-)monotonicity -/

/-- `consecutiveLosses` never decreases under a non-winning operation. -/
theorem applyOp_consecutive_mono (p : PortfolioManager) (op : PortfolioOp)
    (h : op.nonWinning = true) :
    p.consecutiveLosses ≤ (p.applyOp op).consecutiveLosses := by
  cases op with
  | fee a => exact le_refl _
  | equity t =>
    simp only [PortfolioManager.applyOp, PortfolioManager.recordEquity]
    split <;> split <;> exact le_refl _
  | trade r =>
    have hneg : r.netPnl < 0 := of_decide_eq_true h
    simp only [PortfolioManager.applyOp, PortfolioManager.applyTradeResult]
    rw [if_pos hneg]
    exact Nat.le_succ _

/-- C6 counterexample: the claimed monotonicity fails on the code.  With
balance 100, no daily loss and `consecutiveLosses = 10`, `canTrade()` is
false; one `applyTradeResult` with positive net pnl (a winning close of a
previously opened position) resets the streak and `canTrade()` is true
again within the same UTC day. -/
theorem canTrade_monotonicity_counterexample :
    PortfolioManager.canTrade ⟨100, 0, 10, -1, [], 100, 0⟩ = false ∧
    PortfolioManager.canTrade
      (PortfolioManager.applyOps ⟨100, 0, 10, -1, [], 100, 0⟩
        [PortfolioOp.trade ⟨5, 4, 1⟩]) = true := by
  constructor
  · norm_num [PortfolioManager.canTrade, MAX_DAILY_LOSS_PERCENT,
      MAX_CONSECUTIVE_LOSSES]
  · norm_num [PortfolioManager.applyOps, PortfolioManager.applyOp,
      PortfolioManager.applyTradeResult, PortfolioManager.canTrade,
      MAX_DAILY_LOSS_PERCENT, MAX_CONSECUTIVE_LOSSES]

/-- C6 (amended): `canTrade()` is false iff
`dailyLoss / balance ≥ 10%` or `consecutiveLosses ≥ 10`; and once it is
false because `consecutiveLosses ≥ 10`, it stays false after every
subsequent same-day `deductFee`, `recordEquity` and losing
`applyTradeResult` — but a winning `applyTradeResult` (net pnl ≥ 0) can
re-enable trading, so the unconditional monotonicity the spec claims does
not hold. -/
theorem canTrade_kill_switch (p : PortfolioManager) (ops : List PortfolioOp)
    (hc : MAX_CONSECUTIVE_LOSSES ≤ p.consecutiveLosses)
    (hall : ∀ op ∈ ops, op.nonWinning = true) :
    (∀ q : PortfolioManager,
      (q.canTrade = false ↔
        (MAX_DAILY_LOSS_PERCENT ≤ q.dailyLoss / q.balance ∨
          MAX_CONSECUTIVE_LOSSES ≤ q.consecutiveLosses))) ∧
    (p.applyOps ops).canTrade = false := by
  constructor
  · intro q
    unfold PortfolioManager.canTrade
    split
    · next h => simp only [eq_self_iff_true, true_iff]; exact Or.inl h
    · next h =>
      split
      · next h2 => simp only [eq_self_iff_true, true_iff]; exact Or.inr h2
      · next h2 =>
        constructor
        · intro hfalse; cases hfalse
        · rintro (hl | hr)
          · exact absurd hl h
          · exact absurd hr h2
  · have key : ∀ (l : List PortfolioOp) (q : PortfolioManager),
        (∀ op ∈ l, op.nonWinning = true) →
        MAX_CONSECUTIVE_LOSSES ≤ q.consecutiveLosses →
        MAX_CONSECUTIVE_LOSSES ≤ (q.applyOps l).consecutiveLosses := by
      intro l
      induction l with
      | nil => intro q _ h; exact h
      | cons op rest ih =>
        intro q hl hq
        have h1 := applyOp_consecutive_mono q op (hl op (by simp))
        exact ih (q.applyOp op) (fun o ho => hl o (by simp [ho]))
          (le_trans hq h1)
    have hfin := key ops p hall hc
    unfold PortfolioManager.canTrade
    rcases le_or_lt MAX_DAILY_LOSS_PERCENT
        ((p.applyOps ops).dailyLoss / (p.applyOps ops).balance) with hr | hr
    · rw [if_pos hr]
    · rw [if_neg (not_le.mpr hr), if_pos hfin]

/-- Witness for C6 (amended) at a concrete input: after a losing streak
of 10, a fee deduction, a losing trade and an equity snapshot keep the
kill switch engaged. -/
theorem canTrade_kill_switch_witness :
    PortfolioManager.canTrade
      (PortfolioManager.applyOps ⟨100, 0, 10, -1, [], 100, 0⟩
        [PortfolioOp.fee 1, PortfolioOp.trade ⟨-5, 1, -6⟩,
         PortfolioOp.equity 7]) = false :=
  (canTrade_kill_switch ⟨100, 0, 10, -1, [], 100, 0⟩
    [PortfolioOp.fee 1, PortfolioOp.trade ⟨-5, 1, -6⟩, PortfolioOp.equity 7]
    (by norm_num [MAX_CONSECUTIVE_LOSSES])
    (by
      intro op h
      simp only [List.mem_cons, List.not_mem_nil, or_false] at h
      rcases h with h | h | h <;> subst h <;>
        norm_num [PortfolioOp.nonWinning])).2

/-! ## C9 — pullback validation -/

/-- C9 counterexample: with the last 1m candle closing at 100 on
`rangeHigh = 100` and `VWAP = 200`, the code accepts the pullback (the
close is within 0.2% of `rangeHigh`), while the spec's wording — within
0.2% of `max(rangeHigh, VWAP) = 200` — rejects it. -/
theorem isPullbackValid_spec_counterexample :
    isPullbackValid [⟨0, 99.5, 100.5, 99, 100, 1, "BTCUSDT", "1m"⟩]
      ⟨.LONG, 10, 101, 100, 0, 100⟩ ⟨100, 90, 0, 10⟩ 200 = true ∧
    isPullbackValidSpec [⟨0, 99.5, 100.5, 99, 100, 1, "BTCUSDT", "1m"⟩]
      ⟨.LONG, 10, 101, 100, 0, 100⟩ ⟨100, 90, 0, 10⟩ 200 = false := by
  constructor <;>
    norm_num [isPullbackValid, isPullbackValidSpec, List.getLast?]

/-- C9 (amended): for a non-empty 1m window, `isPullbackValid` returns
true iff (for LONG) the last candle's retracement depth is ≤ 50% of the
impulse and the close is within 0.2% of `rangeHigh` **or** within 0.2% of
`VWAP` (the code tests the two levels separately, not their maximum);
SHORT symmetric with `rangeLow`. -/
theorem isPullbackValid_characterisation (candles1m : List Candle)
    (breakout : BreakoutSignal) (range : MarketRange) (vwap : ℚ)
    (lastCandle : Candle) (h : candles1m.getLast? = some lastCandle) :
    isPullbackValid candles1m breakout range vwap = true ↔
      ((breakout.direction = .LONG →
        breakout.price - lastCandle.low ≤ breakout.impulseSize * 0.5 ∧
        (|lastCandle.close - range.high| < range.high * 0.002 ∨
          |lastCandle.close - vwap| < vwap * 0.002)) ∧
      (breakout.direction = .SHORT →
        lastCandle.high - breakout.price ≤ breakout.impulseSize * 0.5 ∧
        (|lastCandle.close - range.low| < range.low * 0.002 ∨
          |lastCandle.close - vwap| < vwap * 0.002))) := by
  rcases breakout with ⟨dir, imp, ihg, ilw, bts, bprice⟩
  cases dir
  case LONG =>
    simp only [isPullbackValid, h]
    by_cases hdep : bprice - lastCandle.low > imp * 0.5
    · rw [if_pos hdep]
      simp only [Bool.false_eq_true, false_iff]
      rintro ⟨h1, -⟩
      exact absurd hdep (not_lt.mpr (h1 trivial).1)
    · rw [if_neg hdep]
      push_neg at hdep
      constructor
      · intro hdec
        refine ⟨fun _ => ⟨hdep, of_decide_eq_true hdec⟩, ?_⟩
        intro hS
        cases hS
      · rintro ⟨h1, -⟩
        exact decide_eq_true ((h1 trivial).2)
  case SHORT =>
    simp only [isPullbackValid, h]
    by_cases hdep : lastCandle.high - bprice > imp * 0.5
    · rw [if_pos hdep]
      simp only [Bool.false_eq_true, false_iff]
      rintro ⟨-, h2⟩
      exact absurd hdep (not_lt.mpr (h2 trivial).1)
    · rw [if_neg hdep]
      push_neg at hdep
      constructor
      · intro hdec
        refine ⟨?_, fun _ => ⟨hdep, of_decide_eq_true hdec⟩⟩
        intro hL
        cases hL
      · rintro ⟨-, h2⟩
        exact decide_eq_true ((h2 trivial).2)

/-- Witness for C9 (amended) at a concrete input: a LONG pullback whose
last close sits on both the broken range high and the VWAP. -/
theorem isPullbackValid_characterisation_witness :
    isPullbackValid [⟨0, 99.5, 100.5, 99, 100, 1, "BTCUSDT", "1m"⟩]
      ⟨.LONG, 10, 101, 100, 0, 100⟩ ⟨100, 90, 0, 10⟩ 100 = true :=
  (isPullbackValid_characterisation
      [⟨0, 99.5, 100.5, 99, 100, 1, "BTCUSDT", "1m"⟩]
      ⟨.LONG, 10, 101, 100, 0, 100⟩ ⟨100, 90, 0, 10⟩ 100 _ rfl).mpr
    (by
      refine ⟨fun _ => ⟨by norm_num, Or.inl (by norm_num)⟩, ?_⟩
      intro hS
      cases hS)

/-! ## C8 — ATR: Wilder recurrence -/

/-- C8 counterexample: on `atrProbeCandles` (true ranges
`[14, 0, …, 0]`), `IndicatorEngine.calculateATR` — the ATR(14) the
strategy consumes — returns the SMA of the last 14 true ranges (0 here),
not the Wilder-recurrence value `((14−1)·1 + 0)/14 = 13/14` obtained from
its own value one candle earlier, so `calculateATR` does not satisfy the
claimed recurrence. -/
theorem calculateATR_wilder_counterexample :
    (trueRanges atrProbeCandles).getLast? = some 0 ∧
    calculateATR (atrProbeCandles.take 15) 14 = 1 ∧
    calculateATR atrProbeCandles 14 = 0 ∧
    calculateATR atrProbeCandles 14 ≠
      (((14 : ℚ) - 1) * calculateATR (atrProbeCandles.take 15) 14 + 0) / 14 := by
  refine ⟨?_, ?_, ?_, ?_⟩ <;>
    norm_num [atrProbeCandles, flatCandle, calculateATR, calculateSMA,
      trueRanges, trueRangesFrom, trueRange, List.replicate, List.getLast?]

/-- Step-indexed recurrence for the Wilder loop: in the list
`cur :: wilderSteps period cur rest`, each element is obtained from its
predecessor and the matching true range by
`(prev·(period−1) + tr) / period`. -/
theorem wilderSteps_recurrence (period : Nat) :
    ∀ (rest : List ℚ) (cur : ℚ) (k : Nat) (prev tr : ℚ),
      (cur :: wilderSteps period cur rest)[k]? = some prev →
      rest[k]? = some tr →
      (cur :: wilderSteps period cur rest)[k + 1]? =
        some ((prev * ((period : ℚ) - 1) + tr) / (period : ℚ)) := by
  intro rest
  induction rest with
  | nil =>
    intro cur k prev tr h1 h2
    simp at h2
  | cons tr0 rest ih =>
    intro cur k prev tr h1 h2
    cases k with
    | zero =>
      rw [List.getElem?_cons_zero] at h1 h2
      obtain rfl : cur = prev := by injection h1
      obtain rfl : tr0 = tr := by injection h2
      rw [wilderSteps]
      rw [List.getElem?_cons_succ, List.getElem?_cons_zero]
    | succ k =>
      rw [wilderSteps] at h1 ⊢
      rw [List.getElem?_cons_succ] at h1 ⊢
      rw [List.getElem?_cons_succ] at h2
      exact ih _ k prev tr h1 h2

/-- C8 (amended): the Wilder recurrence holds for `IndicatorsProvider.atr`
(seed = SMA of the first `period` true ranges, then
`ATR_{k+1} = (ATR_k·(period−1) + TR_{period+k+1})/period`), but **not** for
`IndicatorEngine.calculateATR`, which the strategy consumes and which is
the SMA of the last `period` true ranges. -/
theorem atr_wilder_recurrence (candles : List Candle) (period : Nat)
    (hlen : period < candles.length) :
    (atr candles period).head? =
      some (((trueRanges candles).take period).sum / (period : ℚ)) ∧
    ∀ k prev tr, (atr candles period)[k]? = some prev →
      (trueRanges candles)[period + k]? = some tr →
      (atr candles period)[k + 1]? =
        some ((prev * ((period : ℚ) - 1) + tr) / (period : ℚ)) := by
  have hne : ¬ candles.length ≤ period := not_le.mpr hlen
  constructor
  · rw [atr, if_neg hne]
    rfl
  · intro k prev tr h1 h2
    rw [atr, if_neg hne] at h1 ⊢
    refine wilderSteps_recurrence period _ _ k prev tr h1 ?_
    rw [List.getElem?_drop]
    exact h2

/-- Witness for C8 (amended) on `atrProbeCandles`: the seed is 1 (SMA of
the first 14 true ranges) and the next Wilder value is `13/14`. -/
theorem atr_wilder_recurrence_witness :
    (atr atrProbeCandles 14)[1]? =
      some (((1 : ℚ) * ((14 : ℚ) - 1) + 0) / (14 : ℚ)) :=
  (atr_wilder_recurrence atrProbeCandles 14 (by
      norm_num [atrProbeCandles, List.replicate])).2 0 1 0
    (by norm_num [atr, atrProbeCandles, flatCandle, trueRanges,
      trueRangesFrom, trueRange, List.replicate])
    (by norm_num [atrProbeCandles, flatCandle, trueRanges,
      trueRangesFrom, trueRange, List.replicate])

/-! ## C1 — liquidation precedence -/

/-- C1: on any candle strictly after the entry candle, if both the
liquidation level and the stop loss are crossed, the position exits as
`LIQUIDATED` at the liquidation price, where
`liq_long = entry·(1 − 1/10 + 0.005)` and
`liq_short = entry·(1 + 1/10 − 0.005)`; the stop loss is checked only
when liquidation is not crossed, the take profit only when neither is,
and the chosen exit removes the position from the engine. -/
theorem liquidation_precedence (pos : ActivePosition) (candle : Candle)
    (s : EngineState) (hEntry : pos.entryTime < candle.timestamp) :
    (∀ e : ℚ, calculateLiquidationPrice e .LONG = e * (1 - 1 / 10 + 0.005) ∧
      calculateLiquidationPrice e .SHORT = e * (1 + 1 / 10 - 0.005)) ∧
    (pos.signal.direction = .LONG →
      (candle.low ≤ calculateLiquidationPrice pos.entryPrice .LONG →
        manageDecision pos candle =
          some (calculateLiquidationPrice pos.entryPrice .LONG, "LIQUIDATED")) ∧
      (¬ candle.low ≤ calculateLiquidationPrice pos.entryPrice .LONG →
        candle.low ≤ pos.signal.stopLoss →
        manageDecision pos candle = some (pos.signal.stopLoss, "Stop Loss")) ∧
      (¬ candle.low ≤ calculateLiquidationPrice pos.entryPrice .LONG →
        ¬ candle.low ≤ pos.signal.stopLoss →
        candle.high ≥ pos.signal.takeProfit →
        manageDecision pos candle = some (pos.signal.takeProfit, "Take Profit"))) ∧
    (pos.signal.direction = .SHORT →
      (candle.high ≥ calculateLiquidationPrice pos.entryPrice .SHORT →
        manageDecision pos candle =
          some (calculateLiquidationPrice pos.entryPrice .SHORT, "LIQUIDATED")) ∧
      (¬ candle.high ≥ calculateLiquidationPrice pos.entryPrice .SHORT →
        candle.high ≥ pos.signal.stopLoss →
        manageDecision pos candle = some (pos.signal.stopLoss, "Stop Loss")) ∧
      (¬ candle.high ≥ calculateLiquidationPrice pos.entryPrice .SHORT →
        ¬ candle.high ≥ pos.signal.stopLoss →
        candle.low ≤ pos.signal.takeProfit →
        manageDecision pos candle = some (pos.signal.takeProfit, "Take Profit"))) ∧
    (s.activePositions candle.symbol = some pos →
      ∀ pr, manageDecision pos candle = some pr →
        (managePositions s candle).activePositions candle.symbol = none) := by
  have hne : candle.timestamp ≠ pos.entryTime := hEntry.ne'
  refine ⟨fun e => ⟨rfl, rfl⟩, ?_, ?_, ?_⟩
  · intro hdir
    refine ⟨?_, ?_, ?_⟩
    · intro hliq
      simp only [manageDecision, if_neg hne, hdir]
      rw [if_pos hliq]
    · intro hnl hsl
      simp only [manageDecision, if_neg hne, hdir]
      rw [if_neg hnl, if_pos hsl]
    · intro hnl hns htp
      simp only [manageDecision, if_neg hne, hdir]
      rw [if_neg hnl, if_neg hns, if_pos htp]
  · intro hdir
    refine ⟨?_, ?_, ?_⟩
    · intro hliq
      simp only [manageDecision, if_neg hne, hdir]
      rw [if_pos hliq]
    · intro hnl hsl
      simp only [manageDecision, if_neg hne, hdir]
      rw [if_neg hnl, if_pos hsl]
    · intro hnl hns htp
      simp only [manageDecision, if_neg hne, hdir]
      rw [if_neg hnl, if_neg hns, if_pos htp]
  · intro hpos pr hdec
    obtain ⟨px, reason⟩ := pr
    simp only [managePositions, hpos, hdec, closePosition, mapSet]
    simp

/-- Witness for C1: a LONG position entered at 100 (liquidation level
90.5, stop loss 92) hit by a later candle with low 90 — both levels are
crossed and the decision is `LIQUIDATED` at the liquidation price. -/
theorem liquidation_precedence_witness :
    manageDecision
      ⟨1, ⟨"BTCUSDT", .LONG, .LIMIT, 100, 92, 105, 0,
          ⟨"Pullback confirmed", none, none, none, none⟩⟩, 1, 100, 0, 0.05⟩
      ⟨60000, 91, 95, 90, 94, 5, "BTCUSDT", "1m"⟩ =
      some (calculateLiquidationPrice 100 .LONG, "LIQUIDATED") :=
  ((liquidation_precedence
      ⟨1, ⟨"BTCUSDT", .LONG, .LIMIT, 100, 92, 105, 0,
          ⟨"Pullback confirmed", none, none, none, none⟩⟩, 1, 100, 0, 0.05⟩
      ⟨60000, 91, 95, 90, 94, 5, "BTCUSDT", "1m"⟩
      (EngineState.init 1000) (by decide)).2.1 rfl).1
    (by norm_num [calculateLiquidationPrice, LEVERAGE, MAINTENANCE_MARGIN])

/-! ## C4 — balance change of a trade equals its net pnl -/

/-- Opening a position deducts exactly the entry fee
`entry·size·TAKER_FEE` from the balance. -/
theorem openPosition_balance (s : EngineState) (symbol : String)
    (signal : TradingSignal) (size entryPrice : ℚ) (t : Int) :
    (openPosition s symbol signal size entryPrice t).portfolio.balance
      = s.portfolio.balance - entryPrice * size * TAKER_FEE := rfl

/-- The position stored by `openPosition`. -/
theorem openPosition_position (s : EngineState) (symbol : String)
    (signal : TradingSignal) (size entryPrice : ℚ) (t : Int) :
    (openPosition s symbol signal size entryPrice t).activePositions symbol
      = some ⟨s.nextTradeId, signal, size, entryPrice, t,
          entryPrice * size * TAKER_FEE⟩ := by
  simp [openPosition, mapSet]

/-- Closing a position moves the balance by exactly the slippage-adjusted
gross pnl minus the exit fee. -/
theorem closePosition_balance (s : EngineState) (symbol : String)
    (pos : ActivePosition) (px : ℚ) (t : Int) (reason : String)
    (hpos : s.activePositions symbol = some pos) :
    (closePosition s symbol px t reason).portfolio.balance
      = s.portfolio.balance
        + (match pos.signal.direction with
           | .LONG => (px * (1 - SLIPPAGE) - pos.entryPrice) * pos.size
           | .SHORT => (pos.entryPrice - px * (1 + SLIPPAGE)) * pos.size)
        - (match pos.signal.direction with
           | .LONG => px * (1 - SLIPPAGE)
           | .SHORT => px * (1 + SLIPPAGE)) * pos.size
          * (if reasonIsTaker reason then TAKER_FEE else MAKER_FEE) := by
  cases hdir : pos.signal.direction <;>
    simp only [closePosition, hpos, hdir, applyTradeResult_balance,
      PortfolioManager.deductFee] <;>
    split <;> ring

/-- C4: for a trade opened and later closed by the engine, the total
balance change is exactly `netPnl = gross − (entryFee + exitFee)`: the
entry fee `entry·size·TAKER` is deducted at open, the exit fee at close
(TAKER rate for stop-loss and liquidation exits, MAKER rate for
take-profit exits, on the slippage-adjusted exit price), and the gross
pnl is `(exit − entry)·size` for LONG and `(entry − exit)·size` for
SHORT with the slippage-adjusted exit price; no fee is double-counted. -/
theorem trade_balance_identity :
    (∀ (s : EngineState) (symbol : String) (signal : TradingSignal)
        (size entryPrice : ℚ) (t : Int),
      (openPosition s symbol signal size entryPrice t).portfolio.balance
        = s.portfolio.balance - entryPrice * size * TAKER_FEE) ∧
    (∀ (s : EngineState) (symbol : String) (pos : ActivePosition)
        (px : ℚ) (t : Int) (reason : String),
      s.activePositions symbol = some pos →
      (closePosition s symbol px t reason).portfolio.balance
        = s.portfolio.balance
          + (match pos.signal.direction with
             | .LONG => (px * (1 - SLIPPAGE) - pos.entryPrice) * pos.size
             | .SHORT => (pos.entryPrice - px * (1 + SLIPPAGE)) * pos.size)
          - (match pos.signal.direction with
             | .LONG => px * (1 - SLIPPAGE)
             | .SHORT => px * (1 + SLIPPAGE)) * pos.size
            * (if reasonIsTaker reason then TAKER_FEE else MAKER_FEE)) ∧
    (∀ (s : EngineState) (symbol : String) (signal : TradingSignal)
        (size entryPrice : ℚ) (t : Int) (px : ℚ) (t2 : Int) (reason : String),
      (closePosition (openPosition s symbol signal size entryPrice t)
          symbol px t2 reason).portfolio.balance
        = s.portfolio.balance
          + ((match signal.direction with
              | .LONG => (px * (1 - SLIPPAGE) - entryPrice) * size
              | .SHORT => (entryPrice - px * (1 + SLIPPAGE)) * size)
             - (entryPrice * size * TAKER_FEE
                + (match signal.direction with
                   | .LONG => px * (1 - SLIPPAGE)
                   | .SHORT => px * (1 + SLIPPAGE)) * size
                  * (if reasonIsTaker reason then TAKER_FEE else MAKER_FEE)))) ∧
    (reasonIsTaker "Stop Loss" = true ∧ reasonIsTaker "LIQUIDATED" = true ∧
      reasonIsTaker "Take Profit" = false) := by
  refine ⟨openPosition_balance, fun s symbol pos px t reason hpos =>
    closePosition_balance s symbol pos px t reason hpos, ?_, ?_⟩
  · intro s symbol signal size entryPrice t px t2 reason
    rw [closePosition_balance _ _ _ _ _ _
      (openPosition_position s symbol signal size entryPrice t),
      openPosition_balance]
    cases signal.direction <;> split <;> ring
  · refine ⟨by decide, by decide, by decide⟩

/-- Witness for C4 at a concrete trade: a LONG position entered at 100
with size 1 closes at raw price 102 with reason "Take Profit"; the
balance moves by the slippage-adjusted gross pnl minus the maker exit
fee. -/
theorem trade_balance_identity_witness :
    (closePosition
        ⟨fun _ => none, fun _ => none,
         fun sym => if sym = "BTCUSDT" then
           some ⟨1, ⟨"BTCUSDT", .LONG, .LIMIT, 100, 99, 102, 0,
             ⟨"Pullback confirmed", none, none, none, none⟩⟩, 1, 100, 60000,
             0.05⟩ else none,
         fun _ => none, PortfolioManager.init 1000, 2⟩
        "BTCUSDT" 102 120000 "Take Profit").portfolio.balance
      = 1000 + (102 * (1 - SLIPPAGE) - 100) * 1
          - 102 * (1 - SLIPPAGE) * 1
            * (if reasonIsTaker "Take Profit" then TAKER_FEE else MAKER_FEE) :=
  trade_balance_identity.2.1
    ⟨fun _ => none, fun _ => none,
     fun sym => if sym = "BTCUSDT" then
       some ⟨1, ⟨"BTCUSDT", .LONG, .LIMIT, 100, 99, 102, 0,
         ⟨"Pullback confirmed", none, none, none, none⟩⟩, 1, 100, 60000,
         0.05⟩ else none,
     fun _ => none, PortfolioManager.init 1000, 2⟩
    "BTCUSDT"
    ⟨1, ⟨"BTCUSDT", .LONG, .LIMIT, 100, 99, 102, 0,
      ⟨"Pullback confirmed", none, none, none, none⟩⟩, 1, 100, 60000, 0.05⟩
    102 120000 "Take Profit" (by simp)

/-! ## C3 — placeOrder guards and the single-pending-order invariant -/

/-- Branch equation: no pending market order for the candle's symbol. -/
theorem execMkt_none (s : EngineState) (c : Candle)
    (hm : s.pendingMarketOrders c.symbol = none) :
    executePendingMarketOrders s c = s := by
  unfold executePendingMarketOrders
  rw [hm]

/-- Branch equation: a market order not yet past its one-bar delay is
left untouched. -/
theorem execMkt_wait (s : EngineState) (c : Candle) (o : PendingMarketOrder)
    (hm : s.pendingMarketOrders c.symbol = some o)
    (ht : c.timestamp ≤ o.timestamp) :
    executePendingMarketOrders s c = s := by
  unfold executePendingMarketOrders
  rw [hm]
  exact if_pos ht

/-- Branch equation: a market order past its delay fills at the candle's
open adjusted by slippage and is dequeued. -/
theorem execMkt_fill (s : EngineState) (c : Candle) (o : PendingMarketOrder)
    (hm : s.pendingMarketOrders c.symbol = some o)
    (ht : ¬ c.timestamp ≤ o.timestamp) :
    executePendingMarketOrders s c =
      { openPosition s c.symbol o.signal o.size
          (match o.signal.direction with
           | .LONG => c.open_ * (1 + SLIPPAGE)
           | .SHORT => c.open_ * (1 - SLIPPAGE)) c.timestamp with
        pendingMarketOrders :=
          mapSet (openPosition s c.symbol o.signal o.size
            (match o.signal.direction with
             | .LONG => c.open_ * (1 + SLIPPAGE)
             | .SHORT => c.open_ * (1 - SLIPPAGE)) c.timestamp).pendingMarketOrders
            c.symbol none } := by
  unfold executePendingMarketOrders
  rw [hm]
  exact if_neg ht

/-- Branch equation: no pending limit order for the candle's symbol. -/
theorem checkLimit_none (s : EngineState) (c : Candle)
    (hl : s.pendingOrders c.symbol = none) :
    checkLimitOrders s c = s := by
  unfold checkLimitOrders
  rw [hl]

/-- Branch equation: a limit order not yet past its one-bar delay is
left untouched. -/
theorem checkLimit_wait (s : EngineState) (c : Candle) (o : PendingLimitOrder)
    (hl : s.pendingOrders c.symbol = some o)
    (ht : c.timestamp ≤ o.timestamp) :
    checkLimitOrders s c = s := by
  unfold checkLimitOrders
  rw [hl]
  exact if_pos ht

/-- Branch equation: a touched limit order past its delay fills at the
limit price adjusted by half slippage and is dequeued. -/
theorem checkLimit_fill (s : EngineState) (c : Candle) (o : PendingLimitOrder)
    (hl : s.pendingOrders c.symbol = some o)
    (ht : ¬ c.timestamp ≤ o.timestamp)
    (hfill : (match o.signal.direction with
      | .LONG => decide (c.low ≤ o.signal.price)
      | .SHORT => decide (c.high ≥ o.signal.price)) = true) :
    checkLimitOrders s c =
      { openPosition s c.symbol o.signal o.size
          (match o.signal.direction with
           | .LONG => o.signal.price * (1 + SLIPPAGE * 0.5)
           | .SHORT => o.signal.price * (1 - SLIPPAGE * 0.5)) c.timestamp with
        pendingOrders :=
          mapSet (openPosition s c.symbol o.signal o.size
            (match o.signal.direction with
             | .LONG => o.signal.price * (1 + SLIPPAGE * 0.5)
             | .SHORT => o.signal.price * (1 - SLIPPAGE * 0.5)) c.timestamp).pendingOrders
            c.symbol none } := by
  unfold checkLimitOrders
  simp only [hl]
  rw [if_neg ht, if_pos hfill]

/-- Branch equation: an untouched limit order past the two-hour timeout
is dequeued without opening a position. -/
theorem checkLimit_timeout (s : EngineState) (c : Candle) (o : PendingLimitOrder)
    (hl : s.pendingOrders c.symbol = some o)
    (ht : ¬ c.timestamp ≤ o.timestamp)
    (hfill : ¬ (match o.signal.direction with
      | .LONG => decide (c.low ≤ o.signal.price)
      | .SHORT => decide (c.high ≥ o.signal.price)) = true)
    (hexp : c.timestamp - o.timestamp > 120 * 60 * 1000) :
    checkLimitOrders s c =
      { s with pendingOrders := mapSet s.pendingOrders c.symbol none } := by
  unfold checkLimitOrders
  simp only [hl]
  rw [if_neg ht, if_neg hfill, if_pos hexp]

/-- Branch equation: an untouched limit order within the timeout is left
untouched. -/
theorem checkLimit_noop (s : EngineState) (c : Candle) (o : PendingLimitOrder)
    (hl : s.pendingOrders c.symbol = some o)
    (ht : ¬ c.timestamp ≤ o.timestamp)
    (hfill : ¬ (match o.signal.direction with
      | .LONG => decide (c.low ≤ o.signal.price)
      | .SHORT => decide (c.high ≥ o.signal.price)) = true)
    (hexp : ¬ c.timestamp - o.timestamp > 120 * 60 * 1000) :
    checkLimitOrders s c = s := by
  unfold checkLimitOrders
  simp only [hl]
  rw [if_neg ht, if_neg hfill, if_neg hexp]

/-- `executePendingMarketOrders` never touches the limit-order queue. -/
theorem execMkt_pendingOrders (s : EngineState) (c : Candle) :
    (executePendingMarketOrders s c).pendingOrders = s.pendingOrders := by
  cases hm : s.pendingMarketOrders c.symbol with
  | none => rw [execMkt_none s c hm]
  | some o =>
    by_cases ht : c.timestamp ≤ o.timestamp
    · rw [execMkt_wait s c o hm ht]
    · rw [execMkt_fill s c o hm ht]
      rfl

/-- `executePendingMarketOrders` only keeps or deletes market orders. -/
theorem execMkt_pendingMarket (s : EngineState) (c : Candle) (sym : String) :
    (executePendingMarketOrders s c).pendingMarketOrders sym
        = s.pendingMarketOrders sym ∨
      (executePendingMarketOrders s c).pendingMarketOrders sym = none := by
  cases hm : s.pendingMarketOrders c.symbol with
  | none => rw [execMkt_none s c hm]; exact Or.inl rfl
  | some o =>
    by_cases ht : c.timestamp ≤ o.timestamp
    · rw [execMkt_wait s c o hm ht]; exact Or.inl rfl
    · rw [execMkt_fill s c o hm ht]
      by_cases hsym : sym = c.symbol
      · exact Or.inr (by simp [mapSet, hsym])
      · exact Or.inl (by simp [mapSet, hsym, openPosition])

/-- `checkLimitOrders` never touches the market-order queue. -/
theorem checkLimit_pendingMarket (s : EngineState) (c : Candle) :
    (checkLimitOrders s c).pendingMarketOrders = s.pendingMarketOrders := by
  cases hl : s.pendingOrders c.symbol with
  | none => rw [checkLimit_none s c hl]
  | some o =>
    by_cases ht : c.timestamp ≤ o.timestamp
    · rw [checkLimit_wait s c o hl ht]
    · by_cases hfill : (match o.signal.direction with
        | .LONG => decide (c.low ≤ o.signal.price)
        | .SHORT => decide (c.high ≥ o.signal.price)) = true
      · rw [checkLimit_fill s c o hl ht hfill]
        rfl
      · by_cases hexp : c.timestamp - o.timestamp > 120 * 60 * 1000
        · rw [checkLimit_timeout s c o hl ht hfill hexp]
        · rw [checkLimit_noop s c o hl ht hfill hexp]

/-- `checkLimitOrders` only keeps or deletes limit orders. -/
theorem checkLimit_pendingOrders (s : EngineState) (c : Candle) (sym : String) :
    (checkLimitOrders s c).pendingOrders sym = s.pendingOrders sym ∨
      (checkLimitOrders s c).pendingOrders sym = none := by
  cases hl : s.pendingOrders c.symbol with
  | none => rw [checkLimit_none s c hl]; exact Or.inl rfl
  | some o =>
    by_cases ht : c.timestamp ≤ o.timestamp
    · rw [checkLimit_wait s c o hl ht]; exact Or.inl rfl
    · by_cases hfill : (match o.signal.direction with
        | .LONG => decide (c.low ≤ o.signal.price)
        | .SHORT => decide (c.high ≥ o.signal.price)) = true
      · rw [checkLimit_fill s c o hl ht hfill]
        by_cases hsym : sym = c.symbol
        · exact Or.inr (by simp [mapSet, hsym])
        · exact Or.inl (by simp [mapSet, hsym, openPosition])
      · by_cases hexp : c.timestamp - o.timestamp > 120 * 60 * 1000
        · rw [checkLimit_timeout s c o hl ht hfill hexp]
          by_cases hsym : sym = c.symbol
          · exact Or.inr (by simp [mapSet, hsym])
          · exact Or.inl (by simp [mapSet, hsym])
        · rw [checkLimit_noop s c o hl ht hfill hexp]; exact Or.inl rfl

/-- `closePosition` never touches the order queues. -/
theorem closePosition_queues (s : EngineState) (symbol : String) (px : ℚ)
    (t : Int) (reason : String) :
    (closePosition s symbol px t reason).pendingOrders = s.pendingOrders ∧
    (closePosition s symbol px t reason).pendingMarketOrders
      = s.pendingMarketOrders := by
  unfold closePosition
  cases hp : s.activePositions symbol
  · exact ⟨rfl, rfl⟩
  · exact ⟨rfl, rfl⟩

/-- `managePositions` never touches the order queues. -/
theorem manage_queues (s : EngineState) (c : Candle) :
    (managePositions s c).pendingOrders = s.pendingOrders ∧
    (managePositions s c).pendingMarketOrders = s.pendingMarketOrders := by
  unfold managePositions
  cases hp : s.activePositions c.symbol
  · exact ⟨rfl, rfl⟩
  · next pos =>
    dsimp only
    cases hd : manageDecision pos c
    · exact ⟨rfl, rfl⟩
    · next pr =>
      obtain ⟨px, reason⟩ := pr
      exact closePosition_queues s c.symbol px c.timestamp reason

/-- `cancelOrder` only keeps or deletes orders, in both queues. -/
theorem cancelOrder_queues (s : EngineState) (sym0 sym : String) :
    ((cancelOrder s sym0).pendingOrders sym = s.pendingOrders sym ∨
      (cancelOrder s sym0).pendingOrders sym = none) ∧
    ((cancelOrder s sym0).pendingMarketOrders sym = s.pendingMarketOrders sym ∨
      (cancelOrder s sym0).pendingMarketOrders sym = none) := by
  unfold cancelOrder
  dsimp only
  by_cases h1 : (s.pendingOrders sym0).isSome
  · rw [if_pos h1]
    dsimp only
    by_cases h2 : (s.pendingMarketOrders sym0).isSome
    · rw [if_pos h2]
      constructor
      · by_cases hsym : sym = sym0
        · exact Or.inr (by simp [mapSet, hsym])
        · exact Or.inl (by simp [mapSet, hsym])
      · by_cases hsym : sym = sym0
        · exact Or.inr (by simp [mapSet, hsym])
        · exact Or.inl (by simp [mapSet, hsym])
    · rw [if_neg h2]
      constructor
      · by_cases hsym : sym = sym0
        · exact Or.inr (by simp [mapSet, hsym])
        · exact Or.inl (by simp [mapSet, hsym])
      · exact Or.inl rfl
  · rw [if_neg h1]
    by_cases h2 : (s.pendingMarketOrders sym0).isSome
    · rw [if_pos h2]
      constructor
      · exact Or.inl rfl
      · by_cases hsym : sym = sym0
        · exact Or.inr (by simp [mapSet, hsym])
        · exact Or.inl (by simp [mapSet, hsym])
    · rw [if_neg h2]
      exact ⟨Or.inl rfl, Or.inl rfl⟩

/-- `placeOrder` is the identity when rejected; this is the guard part of
claim C3, proved standalone so the invariant part can reuse it. -/
theorem placeOrder_rejected (s : EngineState) (sig : TradingSignal)
    (h : s.portfolio.canTrade = false ∨ (s.activePositions sig.symbol).isSome
      ∨ (s.pendingOrders sig.symbol).isSome
      ∨ (s.pendingMarketOrders sig.symbol).isSome) :
    placeOrder s sig = s := by
  unfold placeOrder
  by_cases hc : s.portfolio.canTrade
  · rw [if_neg (by simp [hc])]
    rcases h with h | h | h | h
    · rw [hc] at h; cases h
    · rw [if_pos h]
    · by_cases hpos : (s.activePositions sig.symbol).isSome
      · rw [if_pos hpos]
      · rw [if_neg hpos, if_pos (Or.inl h)]
    · by_cases hpos : (s.activePositions sig.symbol).isSome
      · rw [if_pos hpos]
      · rw [if_neg hpos, if_pos (Or.inr h)]
  · rw [if_pos (by simp [Bool.not_eq_true] at hc ⊢; exact hc)]

/-- A single engine step preserves the at-most-one-pending-order
invariant. -/
theorem step_preserves_atMostOnePending (s : EngineState) (op : EngineOp)
    (h : atMostOnePending s) : atMostOnePending (s.step op) := by
  cases op with
  | place sig =>
    show atMostOnePending (placeOrder s sig)
    unfold placeOrder
    split
    · exact h
    split
    · exact h
    split
    · exact h
    next hno =>
      push_neg at hno
      obtain ⟨h1, h2⟩ := hno
      have h1' : s.pendingOrders sig.symbol = none :=
        Option.not_isSome_iff_eq_none.mp h1
      have h2' : s.pendingMarketOrders sig.symbol = none :=
        Option.not_isSome_iff_eq_none.mp h2
      cases hot : sig.orderType
      · intro sym
        by_cases hsym : sym = sig.symbol
        · subst hsym
          exact Or.inl (by simp [mapSet, h1'])
        · rcases h sym with hh | hh
          · exact Or.inl hh
          · exact Or.inr (by simpa [mapSet, hsym] using hh)
      · intro sym
        by_cases hsym : sym = sig.symbol
        · subst hsym
          exact Or.inr (by simp [mapSet, h2'])
        · rcases h sym with hh | hh
          · exact Or.inl (by simpa [mapSet, hsym] using hh)
          · exact Or.inr hh
  | market c =>
    show atMostOnePending (onMarketData s c)
    unfold onMarketData
    intro sym
    obtain ⟨mq1, mq2⟩ := manage_queues
      (checkLimitOrders (executePendingMarketOrders
        { s with lastCandles := mapSet s.lastCandles c.symbol (some c) } c) c) c
    rw [mq1, mq2, checkLimit_pendingMarket]
    rcases checkLimit_pendingOrders
        (executePendingMarketOrders
          { s with lastCandles := mapSet s.lastCandles c.symbol (some c) } c) c sym
      with hl | hl
    · rw [hl, execMkt_pendingOrders]
      rcases execMkt_pendingMarket
          { s with lastCandles := mapSet s.lastCandles c.symbol (some c) } c sym
        with hm | hm
      · rw [hm]
        exact h sym
      · exact Or.inr hm
    · exact Or.inl hl
  | cancel sym0 =>
    show atMostOnePending (cancelOrder s sym0)
    intro sym
    obtain ⟨hq1, hq2⟩ := cancelOrder_queues s sym0 sym
    rcases hq1 with hq1 | hq1
    · rcases hq2 with hq2 | hq2
      · rw [hq1, hq2]
        exact h sym
      · exact Or.inr hq2
    · exact Or.inl hq1

/-- C3: `placeOrder` is a no-op on the whole execution state whenever the
kill switch is active, a position already exists for the signal's symbol,
or an order is already pending for it; consequently, starting from a
fresh engine, any sequence of `placeOrder` / `onMarketData` /
`cancelOrder` calls leaves each symbol with at most one pending order (at
most one position and one order of each kind per symbol is structural in
the per-symbol maps). -/
theorem placeOrder_guards_and_single_pending :
    (∀ (s : EngineState) (sig : TradingSignal),
      (s.portfolio.canTrade = false ∨ (s.activePositions sig.symbol).isSome
        ∨ (s.pendingOrders sig.symbol).isSome
        ∨ (s.pendingMarketOrders sig.symbol).isSome) →
      placeOrder s sig = s) ∧
    (∀ (b : ℚ) (ops : List EngineOp),
      atMostOnePending (EngineState.run (EngineState.init b) ops)) := by
  refine ⟨placeOrder_rejected, ?_⟩
  intro b ops
  have key : ∀ (l : List EngineOp) (s : EngineState), atMostOnePending s →
      atMostOnePending (EngineState.run s l) := by
    intro l
    induction l with
    | nil => intro s hs; exact hs
    | cons op rest ih =>
      intro s hs
      exact ih (s.step op) (step_preserves_atMostOnePending s op hs)
  exact key ops (EngineState.init b) (fun sym => Or.inl rfl)

/-- Witness for C3: a state that already has a pending limit order for
"BTCUSDT" rejects a second order for the same symbol unchanged. -/
theorem placeOrder_guards_witness :
    placeOrder
      ⟨fun sym => if sym = "BTCUSDT" then
          some ⟨⟨"BTCUSDT", .LONG, .LIMIT, 100, 99, 102, 0,
            ⟨"Pullback confirmed", none, none, none, none⟩⟩, 1, 0⟩ else none,
        fun _ => none, fun _ => none, fun _ => none,
        PortfolioManager.init 1000, 1⟩
      ⟨"BTCUSDT", .LONG, .LIMIT, 101, 99, 102, 5,
        ⟨"Pullback confirmed", none, none, none, none⟩⟩ =
      ⟨fun sym => if sym = "BTCUSDT" then
          some ⟨⟨"BTCUSDT", .LONG, .LIMIT, 100, 99, 102, 0,
            ⟨"Pullback confirmed", none, none, none, none⟩⟩, 1, 0⟩ else none,
        fun _ => none, fun _ => none, fun _ => none,
        PortfolioManager.init 1000, 1⟩ :=
  placeOrder_guards_and_single_pending.1 _ _
    (Or.inr (Or.inr (Or.inl (by simp))))

/-! ## C2 — one-bar delay -/

/-- `managePositions` is the identity when no position exists for the
candle's symbol. -/
theorem manage_none (s : EngineState) (c : Candle)
    (hp : s.activePositions c.symbol = none) : managePositions s c = s := by
  unfold managePositions
  rw [hp]

/-- `managePositions` skips the entry candle of a position. -/
theorem manage_entry_candle (s : EngineState) (c : Candle)
    (pos : ActivePosition) (hp : s.activePositions c.symbol = some pos)
    (he : pos.entryTime = c.timestamp) : managePositions s c = s := by
  unfold managePositions
  rw [hp]
  dsimp only
  have hdec : manageDecision pos c = none := by
    unfold manageDecision
    rw [if_pos he.symm]
  rw [hdec]

/-- Orders enqueued by `placeOrder` carry the signal's timestamp. -/
theorem placeOrder_stamps (s2 : EngineState) (sig : TradingSignal) :
    (∀ (sym : String) (o : PendingLimitOrder),
      (placeOrder s2 sig).pendingOrders sym = some o →
      s2.pendingOrders sym = some o ∨
        (o.signal = sig ∧ o.timestamp = sig.timestamp)) ∧
    (∀ (sym : String) (o : PendingMarketOrder),
      (placeOrder s2 sig).pendingMarketOrders sym = some o →
      s2.pendingMarketOrders sym = some o ∨
        (o.signal = sig ∧ o.timestamp = sig.timestamp)) := by
  unfold placeOrder
  split
  · exact ⟨fun sym o ho => Or.inl ho, fun sym o ho => Or.inl ho⟩
  split
  · exact ⟨fun sym o ho => Or.inl ho, fun sym o ho => Or.inl ho⟩
  split
  · exact ⟨fun sym o ho => Or.inl ho, fun sym o ho => Or.inl ho⟩
  cases hot : sig.orderType
  · refine ⟨fun sym o ho => Or.inl ho, fun sym o ho => ?_⟩
    by_cases hsym : sym = sig.symbol
    · subst hsym
      simp only [mapSet, if_pos rfl] at ho
      obtain rfl := Option.some.inj ho
      exact Or.inr ⟨rfl, rfl⟩
    · simp only [mapSet, if_neg hsym] at ho
      exact Or.inl ho
  · refine ⟨fun sym o ho => ?_, fun sym o ho => Or.inl ho⟩
    by_cases hsym : sym = sig.symbol
    · subst hsym
      simp only [mapSet, if_pos rfl] at ho
      obtain rfl := Option.some.inj ho
      exact Or.inr ⟨rfl, rfl⟩
    · simp only [mapSet, if_neg hsym] at ho
      exact Or.inl ho

/-- Full effect of `onMarketData` when a ripe market order fills: the
position opened at the candle's open adjusted by slippage, stamped with
the candle's timestamp. -/
theorem onMarketData_mktfill (s : EngineState) (c : Candle)
    (o : PendingMarketOrder)
    (hln : s.pendingOrders c.symbol = none)
    (hm : s.pendingMarketOrders c.symbol = some o)
    (ht : ¬ c.timestamp ≤ o.timestamp) :
    (onMarketData s c).activePositions c.symbol =
      some ⟨s.nextTradeId, o.signal, o.size,
        (match o.signal.direction with
         | .LONG => c.open_ * (1 + SLIPPAGE)
         | .SHORT => c.open_ * (1 - SLIPPAGE)), c.timestamp,
        (match o.signal.direction with
         | .LONG => c.open_ * (1 + SLIPPAGE)
         | .SHORT => c.open_ * (1 - SLIPPAGE)) * o.size * TAKER_FEE⟩ := by
  unfold onMarketData
  dsimp only
  set s0 : EngineState :=
    { s with lastCandles := mapSet s.lastCandles c.symbol (some c) } with hs0
  have hm0 : s0.pendingMarketOrders c.symbol = some o := hm
  rw [execMkt_fill s0 c o hm0 ht]
  set fp : ℚ := (match o.signal.direction with
    | .LONG => c.open_ * (1 + SLIPPAGE)
    | .SHORT => c.open_ * (1 - SLIPPAGE)) with hfp
  set G : EngineState := openPosition s0 c.symbol o.signal o.size fp c.timestamp
    with hG
  have hGp : ({ G with pendingMarketOrders := mapSet G.pendingMarketOrders c.symbol none } : EngineState).pendingOrders c.symbol = none := hln
  rw [checkLimit_none _ c hGp]
  have hGa : ({ G with pendingMarketOrders := mapSet G.pendingMarketOrders c.symbol none } : EngineState).activePositions c.symbol
      = some ⟨s0.nextTradeId, o.signal, o.size, fp, c.timestamp,
          fp * o.size * TAKER_FEE⟩ :=
    openPosition_position s0 c.symbol o.signal o.size fp c.timestamp
  rw [manage_entry_candle _ c _ hGa rfl]
  exact hGa

/-- Full effect of `onMarketData` when a ripe, touched limit order
fills: the position opened at the limit price adjusted by half slippage,
stamped with the candle's timestamp. -/
theorem onMarketData_limitfill (s : EngineState) (c : Candle)
    (o : PendingLimitOrder)
    (hmn : s.pendingMarketOrders c.symbol = none)
    (hl : s.pendingOrders c.symbol = some o)
    (ht : ¬ c.timestamp ≤ o.timestamp)
    (hfill : (match o.signal.direction with
      | .LONG => decide (c.low ≤ o.signal.price)
      | .SHORT => decide (c.high ≥ o.signal.price)) = true) :
    (onMarketData s c).activePositions c.symbol =
      some ⟨s.nextTradeId, o.signal, o.size,
        (match o.signal.direction with
         | .LONG => o.signal.price * (1 + SLIPPAGE * 0.5)
         | .SHORT => o.signal.price * (1 - SLIPPAGE * 0.5)), c.timestamp,
        (match o.signal.direction with
         | .LONG => o.signal.price * (1 + SLIPPAGE * 0.5)
         | .SHORT => o.signal.price * (1 - SLIPPAGE * 0.5)) * o.size
          * TAKER_FEE⟩ := by
  unfold onMarketData
  dsimp only
  set s0 : EngineState :=
    { s with lastCandles := mapSet s.lastCandles c.symbol (some c) } with hs0
  have hmn0 : s0.pendingMarketOrders c.symbol = none := hmn
  rw [execMkt_none s0 c hmn0]
  have hl0 : s0.pendingOrders c.symbol = some o := hl
  rw [checkLimit_fill s0 c o hl0 ht hfill]
  set fp : ℚ := (match o.signal.direction with
    | .LONG => o.signal.price * (1 + SLIPPAGE * 0.5)
    | .SHORT => o.signal.price * (1 - SLIPPAGE * 0.5)) with hfp
  set G : EngineState := openPosition s0 c.symbol o.signal o.size fp c.timestamp
    with hG
  have hGa : ({ G with pendingOrders := mapSet G.pendingOrders c.symbol none } : EngineState).activePositions c.symbol
      = some ⟨s0.nextTradeId, o.signal, o.size, fp, c.timestamp,
          fp * o.size * TAKER_FEE⟩ :=
    openPosition_position s0 c.symbol o.signal o.size fp c.timestamp
  rw [manage_entry_candle _ c _ hGa rfl]
  exact hGa

/-- C2: a pending order (LIMIT or MARKET) enqueued with timestamp `t` is
never filled by `onMarketData` on a candle whose timestamp is ≤ `t` —
the order stays queued and no position appears; any position that does
appear was opened on a candle strictly after its order's timestamp, a
MARKET order filling at the candle's open adjusted by slippage and a
LIMIT order only when the candle touches the limit price; and
`placeOrder` stamps every queued order with its signal's timestamp, so
every trade's entry timestamp is strictly greater than its signal
timestamp. -/
theorem one_bar_delay (s : EngineState) (c : Candle)
    (hpos : s.activePositions c.symbol = none)
    (hone : s.pendingOrders c.symbol = none ∨
      s.pendingMarketOrders c.symbol = none) :
    (∀ o : PendingMarketOrder, s.pendingMarketOrders c.symbol = some o →
      c.timestamp ≤ o.timestamp →
      (onMarketData s c).pendingMarketOrders c.symbol = some o ∧
      (onMarketData s c).activePositions c.symbol = none) ∧
    (∀ o : PendingLimitOrder, s.pendingOrders c.symbol = some o →
      c.timestamp ≤ o.timestamp →
      (onMarketData s c).pendingOrders c.symbol = some o ∧
      (onMarketData s c).activePositions c.symbol = none) ∧
    (∀ p : ActivePosition,
      (onMarketData s c).activePositions c.symbol = some p →
      p.entryTime = c.timestamp ∧
      ((∃ o : PendingMarketOrder, s.pendingMarketOrders c.symbol = some o ∧
          o.timestamp < c.timestamp ∧ p.signal = o.signal ∧
          p.entryPrice = (match o.signal.direction with
            | .LONG => c.open_ * (1 + SLIPPAGE)
            | .SHORT => c.open_ * (1 - SLIPPAGE))) ∨
       (∃ o : PendingLimitOrder, s.pendingOrders c.symbol = some o ∧
          o.timestamp < c.timestamp ∧ p.signal = o.signal ∧
          (match o.signal.direction with
            | .LONG => c.low ≤ o.signal.price
            | .SHORT => c.high ≥ o.signal.price) ∧
          p.entryPrice = (match o.signal.direction with
            | .LONG => o.signal.price * (1 + SLIPPAGE * 0.5)
            | .SHORT => o.signal.price * (1 - SLIPPAGE * 0.5))))) ∧
    (∀ (s2 : EngineState) (sig : TradingSignal),
      (∀ (sym : String) (o : PendingLimitOrder),
        (placeOrder s2 sig).pendingOrders sym = some o →
        s2.pendingOrders sym = some o ∨
          (o.signal = sig ∧ o.timestamp = sig.timestamp)) ∧
      (∀ (sym : String) (o : PendingMarketOrder),
        (placeOrder s2 sig).pendingMarketOrders sym = some o →
        s2.pendingMarketOrders sym = some o ∨
          (o.signal = sig ∧ o.timestamp = sig.timestamp))) := by
  refine ⟨?_, ?_, ?_, placeOrder_stamps⟩
  · intro o hm ht
    have hln : s.pendingOrders c.symbol = none := by
      rcases hone with hln | hmn
      · exact hln
      · rw [hm] at hmn
        exact Option.noConfusion hmn
    have base : onMarketData s c =
        { s with lastCandles := mapSet s.lastCandles c.symbol (some c) } := by
      unfold onMarketData
      dsimp only
      set s0 : EngineState :=
        { s with lastCandles := mapSet s.lastCandles c.symbol (some c) } with hs0
      rw [execMkt_wait s0 c o hm ht, checkLimit_none s0 c hln,
        manage_none s0 c hpos]
    rw [base]
    exact ⟨hm, hpos⟩
  · intro o hl ht
    have hmn : s.pendingMarketOrders c.symbol = none := by
      rcases hone with hln | hmn
      · rw [hl] at hln
        exact Option.noConfusion hln
      · exact hmn
    have base : onMarketData s c =
        { s with lastCandles := mapSet s.lastCandles c.symbol (some c) } := by
      unfold onMarketData
      dsimp only
      set s0 : EngineState :=
        { s with lastCandles := mapSet s.lastCandles c.symbol (some c) } with hs0
      rw [execMkt_none s0 c hmn, checkLimit_wait s0 c o hl ht,
        manage_none s0 c hpos]
    rw [base]
    exact ⟨hl, hpos⟩
  · intro p hp2
    cases hm : s.pendingMarketOrders c.symbol with
    | some o =>
      have hln : s.pendingOrders c.symbol = none := by
        rcases hone with hln | hmn
        · exact hln
        · rw [hm] at hmn
          exact Option.noConfusion hmn
      by_cases ht : c.timestamp ≤ o.timestamp
      · have e : (onMarketData s c).activePositions c.symbol = none := by
          unfold onMarketData
          dsimp only
          set s0 : EngineState :=
            { s with lastCandles := mapSet s.lastCandles c.symbol (some c) } with hs0
          rw [execMkt_wait s0 c o hm ht, checkLimit_none s0 c hln,
            manage_none s0 c hpos]
          exact hpos
        rw [e] at hp2
        exact Option.noConfusion hp2
      · have e := onMarketData_mktfill s c o hln hm ht
        rw [e] at hp2
        obtain rfl := Option.some.inj hp2
        exact ⟨rfl, Or.inl ⟨o, rfl, not_le.mp ht, rfl, rfl⟩⟩
    | none =>
      cases hl : s.pendingOrders c.symbol with
      | none =>
        have e : (onMarketData s c).activePositions c.symbol = none := by
          unfold onMarketData
          dsimp only
          set s0 : EngineState :=
            { s with lastCandles := mapSet s.lastCandles c.symbol (some c) } with hs0
          rw [execMkt_none s0 c hm, checkLimit_none s0 c hl,
            manage_none s0 c hpos]
          exact hpos
        rw [e] at hp2
        exact Option.noConfusion hp2
      | some o =>
        by_cases ht : c.timestamp ≤ o.timestamp
        · have e : (onMarketData s c).activePositions c.symbol = none := by
            unfold onMarketData
            dsimp only
            set s0 : EngineState :=
              { s with lastCandles := mapSet s.lastCandles c.symbol (some c) } with hs0
            rw [execMkt_none s0 c hm, checkLimit_wait s0 c o hl ht,
              manage_none s0 c hpos]
            exact hpos
          rw [e] at hp2
          exact Option.noConfusion hp2
        · by_cases hfill : (match o.signal.direction with
            | .LONG => decide (c.low ≤ o.signal.price)
            | .SHORT => decide (c.high ≥ o.signal.price)) = true
          · have e := onMarketData_limitfill s c o hm hl ht hfill
            rw [e] at hp2
            obtain rfl := Option.some.inj hp2
            refine ⟨rfl, Or.inr ⟨o, rfl, not_le.mp ht, rfl, ?_, rfl⟩⟩
            cases hdo : o.signal.direction <;> simp only [hdo] at hfill ⊢ <;>
              exact of_decide_eq_true hfill
          · by_cases hexp : c.timestamp - o.timestamp > 120 * 60 * 1000
            · have e : (onMarketData s c).activePositions c.symbol = none := by
                unfold onMarketData
                dsimp only
                set s0 : EngineState :=
                  { s with lastCandles := mapSet s.lastCandles c.symbol (some c) } with hs0
                rw [execMkt_none s0 c hm,
                  checkLimit_timeout s0 c o hl ht hfill hexp]
                have hpos2 : ({ s0 with pendingOrders := mapSet s0.pendingOrders c.symbol none } : EngineState).activePositions c.symbol = none := hpos
                rw [manage_none _ c hpos2]
                exact hpos
              rw [e] at hp2
              exact Option.noConfusion hp2
            · have e : (onMarketData s c).activePositions c.symbol = none := by
                unfold onMarketData
                dsimp only
                set s0 : EngineState :=
                  { s with lastCandles := mapSet s.lastCandles c.symbol (some c) } with hs0
                rw [execMkt_none s0 c hm,
                  checkLimit_noop s0 c o hl ht hfill hexp,
                  manage_none s0 c hpos]
                exact hpos
              rw [e] at hp2
              exact Option.noConfusion hp2

/-- Witness for C2: a market order enqueued at t = 120000 is not filled
by a candle at t = 60000 — it stays queued and no position opens. -/
theorem one_bar_delay_witness :
    (onMarketData
        ⟨fun _ => none,
         fun sym => if sym = "BTCUSDT" then
           some ⟨⟨"BTCUSDT", .LONG, .MARKET, 100, 99, 102, 120000,
             ⟨"Pullback confirmed", none, none, none, none⟩⟩, 1, 120000⟩ else none,
         fun _ => none, fun _ => none, PortfolioManager.init 1000, 1⟩
        ⟨60000, 100, 101, 99, 100, 5, "BTCUSDT", "1m"⟩).pendingMarketOrders
        "BTCUSDT"
      = some ⟨⟨"BTCUSDT", .LONG, .MARKET, 100, 99, 102, 120000,
          ⟨"Pullback confirmed", none, none, none, none⟩⟩, 1, 120000⟩ ∧
    (onMarketData
        ⟨fun _ => none,
         fun sym => if sym = "BTCUSDT" then
           some ⟨⟨"BTCUSDT", .LONG, .MARKET, 100, 99, 102, 120000,
             ⟨"Pullback confirmed", none, none, none, none⟩⟩, 1, 120000⟩ else none,
         fun _ => none, fun _ => none, PortfolioManager.init 1000, 1⟩
        ⟨60000, 100, 101, 99, 100, 5, "BTCUSDT", "1m"⟩).activePositions
        "BTCUSDT"
      = none :=
  (one_bar_delay
      ⟨fun _ => none,
       fun sym => if sym = "BTCUSDT" then
         some ⟨⟨"BTCUSDT", .LONG, .MARKET, 100, 99, 102, 120000,
           ⟨"Pullback confirmed", none, none, none, none⟩⟩, 1, 120000⟩ else none,
       fun _ => none, fun _ => none, PortfolioManager.init 1000, 1⟩
      ⟨60000, 100, 101, 99, 100, 5, "BTCUSDT", "1m"⟩ rfl (Or.inl rfl)).1
    ⟨⟨"BTCUSDT", .LONG, .MARKET, 100, 99, 102, 120000,
      ⟨"Pullback confirmed", none, none, none, none⟩⟩, 1, 120000⟩
    (by simp) (by decide)

end RBP
